import Mathlib

/-!
# A verification development for the Jacques language runtime

This file gives a shallow embedding, in Lean 4, of the core of the Jacques
scripting-language runtime (tokenizer contract, recursive-descent parser,
environment model, value algebra and tree-walking evaluator), translated from
the TypeScript sources (`Token.ts`, `ASTNode.ts`, `Environment.ts`,
`JacquesValue.ts`, `Parser.ts`, `Interpreter.ts`), together with theorems about
the embedded definitions.

Modelling conventions:
* JavaScript `number` is modelled as `ℚ` (no claim below depends on binary
  floating-point rounding or on NaN/Infinity propagation).
* Host exceptions (`throw new Error(msg)`) are modelled with `Except String`;
  the error strings follow the source messages.
* JavaScript reference semantics for `Environment` objects (scopes mutated in
  place and shared by reference) are modelled by threading the environment
  through evaluation; closures capture the defining environment as a value.
* The evaluator covers the node kinds exercised by the development
  (literals, identifiers, binary/unary expressions, assignment, array and
  object literals, calls, function and lambda values, if/while/return,
  export and type declarations).  Member-expression evaluation, the class
  subsystem, module import and the postfix-update expression rely on
  host-level reflection or on the external module loader and are modelled as
  explicit errors; no theorem below evaluates those node kinds.
-/

namespace Jacques

/-- Token kinds, from `Token.ts` (`enum TokenType`). -/
inductive TokenType where
  | NUMBER | STRING | IDENTIFIER | BOOLEAN
  | PLUS | MINUS | MULTIPLY | DIVIDE | MODULO
  | EQUALS | NOT_EQUALS | LESS_THAN | GREATER_THAN
  | LESS_THAN_OR_EQUAL | GREATER_THAN_OR_EQUAL
  | AND | OR | NOT
  | ASSIGN | CONST_ASSIGN
  | LPAREN | RPAREN | LBRACE | RBRACE | LBRACKET | RBRACKET
  | COLON | SEMICOLON | COMMA | DOT | ARROW | AT
  | INCREMENT
  | FUNCTION | CLASS | EXTENDS | IF | ELSE | END | RETURN
  | CONSTRUCTOR | PROPERTY | GET | SET | STATIC | PRIVATE | PROTECTED
  | CONST | SELF | RESULT | IMPORT | EXPORT | FROM | WHILE
  | EOF
deriving Repr, DecidableEq

/-- The `value` payload of a token: `string | number | boolean | null`. -/
inductive TokenValue where
  | str (s : String)
  | num (n : ℚ)
  | bool (b : Bool)
  | null
deriving Repr, DecidableEq

/-- A lexical token, from `Token.ts` (`interface Token`). -/
structure Token where
  type : TokenType
  value : TokenValue
  line : Nat
  column : Nat
deriving Repr, DecidableEq

/-- `interface TypeNode` from `ASTNode.ts`: a type annotation `{name, isArray}`. -/
structure TypeNode where
  name : String
  isArray : Bool
deriving Repr, DecidableEq

mutual

/-- `interface IdentifierNode` from `ASTNode.ts`: an identifier together with
the optional parameter metadata the parser attaches to it
(`isShorthandProperty?`, `defaultValue?`, `typeAnnotation?`). -/
inductive IdentNode where
  | mk (name : String) (isShorthandProperty : Bool)
       (defaultValue : Option ASTNode) (typeAnnot : Option TypeNode)

/-- The AST node variants of `ASTNode.ts`.  Field layout follows the
TypeScript interfaces; `ImportDeclaration.source` keeps only the string payload
of its `StringLiteralNode`. -/
inductive ASTNode where
  | Program (body : List ASTNode)
  | NumberLiteral (value : ℚ)
  | StringLiteral (value : String)
  | BooleanLiteral (value : Bool)
  | Identifier (ident : IdentNode)
  | BinaryExpression (operator : String) (left right : ASTNode)
  | UnaryExpression (operator : String) (argument : ASTNode)
  | Assignment (isConstant : Bool) (left right : ASTNode)
  | ArrayLiteral (elements : List ASTNode)
  | ObjectLiteral (properties : List (String × ASTNode))
  | MemberExpression (object property : ASTNode) (computed : Bool)
  | CallExpression (callee : ASTNode) (arguments : List ASTNode)
  | FunctionDeclaration (name : Option IdentNode) (params : List IdentNode)
      (body : List ASTNode)
  | LambdaExpression (params : List IdentNode) (body : ASTNode)
  | ClassDeclaration (name : IdentNode) (superClass : Option IdentNode)
      (body : List ASTNode)
  | PropertyDefinition (name : IdentNode) (value : Option ASTNode)
      (isStatic isPrivate isProtected isConstant : Bool)
  | PropertyDeclaration (name : IdentNode) (getter setter : Option ASTNode)
  | MethodDefinition (name : IdentNode) (fn : ASTNode)
      (isStatic isConstructor isPrivate isProtected : Bool)
  | IfStatement (test : ASTNode) (consequent : List ASTNode)
      (alternate : Option (List ASTNode))
  | ReturnStatement (argument : Option ASTNode)
  | ImportDeclaration (specifiers : List IdentNode) (source : String)
  | ExportDeclaration (declaration : ASTNode)
  | WhileStatement (condition : ASTNode) (body : List ASTNode)
  | UpdateExpression (operator : String) (argument : ASTNode)
      (prefixFlag : Bool)
  | TypeDeclaration (name : IdentNode) (typeAnnot : TypeNode)

end

/-- The `name` field of an `IdentifierNode`. -/
def IdentNode.name : IdentNode → String
  | .mk n _ _ _ => n

/-- The `isShorthandProperty` flag of an `IdentifierNode` (default `false`). -/
def IdentNode.shorthand : IdentNode → Bool
  | .mk _ s _ _ => s

/-- The optional `defaultValue` expression of a parameter identifier. -/
def IdentNode.defaultValue : IdentNode → Option ASTNode
  | .mk _ _ d _ => d

/-- A bare identifier node with no parameter metadata, as produced by
`Parser.identifier()`. -/
def ident (name : String) : IdentNode := .mk name false none none

/-- The built-in functions installed by `Interpreter.initializeBuiltins`:
`Println` and the `Number`, `String`, `Boolean`, `Array`, `Map` constructors.
Their host closures are defunctionalised into this enumeration. -/
inductive BuiltinFn where
  | Println | NumberCtor | StringCtor | BooleanCtor | ArrayCtor | MapCtor
deriving Repr, DecidableEq

mutual

/-- The runtime value algebra, from `JacquesValue.ts`.  Each constructor
corresponds to one `JacquesValue` subclass; the `__constant__`/`constantValue`
mirror flag on value objects is not part of the structural value (the binding
flag lives in `Environment`, see `StoredValue` in `Environment.ts`).
`JacquesClass` values belong to the class subsystem, which is outside this
embedding. -/
inductive JacquesValue where
  | JacquesNumber (value : ℚ)
  | JacquesString (value : String)
  | JacquesBoolean (value : Bool)
  | JacquesArray (elements : List JacquesValue)
  | JacquesRecord (properties : List (String × JacquesValue))
  | JacquesFunction (impl : FuncImpl) (name : String) (params : List String)

/-- The host closure wrapped by a `JacquesFunction`, defunctionalised.
`userFunction` is the closure built in `Interpreter.evaluateFunctionDeclaration`
(it captures the defining environment, the parameter list, the body and the
function name); `lambda` is the closure built in
`Interpreter.evaluateLambdaExpression`; `builtin` covers the closures wrapped
by `JacquesFunction.FromFunction` in `initializeBuiltins`.  A captured
environment is a scope chain, innermost scope first (see `Environment`
below). -/
inductive FuncImpl where
  | userFunction (functionName : String) (params : List IdentNode)
      (body : List ASTNode)
      (defEnv : List (List (String × JacquesValue × Bool)))
  | lambda (params : List IdentNode) (body : ASTNode)
      (defEnv : List (List (String × JacquesValue × Bool)))
  | builtin (b : BuiltinFn)

end

/-- One scope of `class Environment` (`Environment.ts`): the
`Map<string, StoredValue>` of a scope as an insertion-ordered association
list of `(name, value, constantBinding)`. -/
abbrev Scope := List (String × JacquesValue × Bool)

/-- `class Environment`: the chain `{values, enclosing}` flattened into the
list of scopes from the innermost outward (`vs :: rest` is the scope with
binding map `vs` whose `enclosing` chain is `rest`; the root scope has an
empty `rest`).  The source mutates scopes in place; here updates produce a
new chain which the evaluator threads through. -/
abbrev Environment := List Scope

namespace ScopeList

/-- `Map.get` on a scope's binding list. -/
def get : List (String × JacquesValue × Bool) → String →
    Option (JacquesValue × Bool)
  | [], _ => none
  | (k, v) :: rest, name => if k = name then some v else get rest name

/-- `Map.has` on a scope's binding list. -/
def has (l : List (String × JacquesValue × Bool)) (name : String) : Bool :=
  (get l name).isSome

/-- `Map.set` on a scope's binding list: replace the entry in place when the
key is present, otherwise append it. -/
def set : List (String × JacquesValue × Bool) → String →
    (JacquesValue × Bool) → List (String × JacquesValue × Bool)
  | [], name, v => [(name, v)]
  | (k, w) :: rest, name, v =>
      if k = name then (k, v) :: rest else (k, w) :: set rest name v

theorem get_set_self (l : List (String × JacquesValue × Bool)) (k : String)
    (v : JacquesValue × Bool) : get (set l k v) k = some v := by
  induction l with
  | nil => simp [set, get]
  | cons hd tl ih =>
      obtain ⟨k', v'⟩ := hd
      by_cases h : k' = k
      · simp [set, get, h]
      · simp [set, get, h, ih]

theorem get_set_ne (l : List (String × JacquesValue × Bool)) (k k' : String)
    (v : JacquesValue × Bool) (h : k ≠ k') :
    get (set l k v) k' = get l k' := by
  induction l with
  | nil => simp [set, get, h]
  | cons hd tl ih =>
      obtain ⟨k₀, v₀⟩ := hd
      by_cases h₀ : k₀ = k
      · subst h₀; simp [set, get, h]
      · by_cases h₁ : k₀ = k'
        · subst h₁; simp [set, get, h₀, h]
        · simp [set, get, h₀, h₁, ih]

end ScopeList

namespace Environment

/-- `Environment.define(name, value, constantBinding)`: insert or overwrite a
binding in the current scope only.  (The empty-chain case is junk with no
source counterpart - a constructed `Environment` always has a current
scope - and conjures one.) -/
def define (env : Environment) (name : String) (value : JacquesValue)
    (constantBinding : Bool) : Environment :=
  match env with
  | [] => [[(name, value, constantBinding)]]
  | vs :: rest => ScopeList.set vs name (value, constantBinding) :: rest

/-- `Environment.assign(name, value)`: walk the scope chain for an existing
binding; a constant binding fails with `Cannot reassign constant variable`,
a mutable one is updated in place, and when the chain is exhausted the call
fails with `Undefined variable`. -/
def assign : Environment → String → JacquesValue →
    Except String Environment
  | [], name, _ => .error s!"Undefined variable '{name}'"
  | vs :: rest, name, value =>
    match ScopeList.get vs name with
    | some (_, constantBinding) =>
        if constantBinding then
          .error s!"Cannot reassign constant variable: {name}"
        else
          .ok (ScopeList.set vs name (value, false) :: rest)
    | none => do
        let rest' ← assign rest name value
        .ok (vs :: rest')

/-- `Environment.get(name)`: walk the scope chain; fails with
`Undefined variable` when exhausted. -/
def get : Environment → String → Except String JacquesValue
  | [], name => .error s!"Undefined variable '{name}'"
  | vs :: rest, name =>
    match ScopeList.get vs name with
    | some (value, _) => .ok value
    | none => get rest name

/-- `Environment.getWithConstantInfo(name)`: like `get` but returning the
constant flag, and `null` (here `none`) instead of an error. -/
def getWithConstantInfo : Environment → String →
    Option (JacquesValue × Bool)
  | [], _ => none
  | vs :: rest, name =>
    match ScopeList.get vs name with
    | some entry => some entry
    | none => getWithConstantInfo rest name

/-- `Environment.has(name)`: does any scope in the chain bind `name`? -/
def has : Environment → String → Bool
  | [], _ => false
  | vs :: rest, name => ScopeList.has vs name || has rest name

/-- The root environment of a fresh interpreter (`new Environment()`). -/
def empty : Environment := [[]]

end Environment

namespace JacquesValue

/-- `__type__`: the host constructor name of a value, used by the
reassignment type check in `Interpreter.evaluateAssignment`. -/
def typeName : JacquesValue → String
  | .JacquesNumber _ => "JacquesNumber"
  | .JacquesString _ => "JacquesString"
  | .JacquesBoolean _ => "JacquesBoolean"
  | .JacquesArray _ => "JacquesArray"
  | .JacquesRecord _ => "JacquesRecord"
  | .JacquesFunction _ _ _ => "JacquesFunction"

/-- JavaScript `Number.prototype.toString` restricted to the rationals this
development evaluates: integers print without a fractional part; other
rationals use Lean's `ℚ` rendering (no theorem below stringifies a
non-integral number). -/
def numToString (q : ℚ) : String :=
  if q.den = 1 then toString q.num else toString q

mutual

/-- `ToString()` on each value subclass (`JacquesValue.ts`).  Function values
print as `function name(params)` per `JacquesFunction.ToString`; record
values print their JSON projection per `JacquesRecord.ToString` (scalar
properties only are projected faithfully; no theorem below stringifies a
record). -/
def ToString : JacquesValue → String
  | .JacquesNumber n => numToString n
  | .JacquesString s => s
  | .JacquesBoolean b => if b then "true" else "false"
  | .JacquesArray elements =>
      "[" ++ String.intercalate ", " (toStringList elements) ++ "]"
  | .JacquesRecord properties =>
      "\x7b" ++ String.intercalate "," (toStringProps properties) ++ "\x7d"
  | .JacquesFunction _ name params =>
      if params.length > 0 then
        "function " ++ name ++ "(" ++ String.intercalate ", " params ++ ")"
      else
        "function " ++ name ++ "()"

/-- `ToString` mapped over array elements. -/
def toStringList : List JacquesValue → List String
  | [] => []
  | v :: rest => ToString v :: toStringList rest

/-- `ToString` mapped over record properties, JSON style. -/
def toStringProps : List (String × JacquesValue) → List String
  | [] => []
  | (k, v) :: rest => ("\"" ++ k ++ "\":" ++ ToString v) :: toStringProps rest

end

mutual

/-- `Equals` across the value subclasses (`JacquesValue.ts`), dispatched on
the left operand as in the source:
* `JacquesNumber/JacquesString/JacquesBoolean.Equals` compare `this.value ===
  other.value`; JavaScript strict equality across payload types is `false`, so
  they hold exactly for an operand of the same kind with an equal payload;
* `JacquesArray.Equals` requires `other instanceof JacquesArray`, equal
  lengths and element-wise `Equals`;
* `JacquesRecord.Equals` compares the key counts and requires every key of
  the left record to be present in the right one; the element-wise check in
  the source tests the truthiness of the `JacquesBoolean` *object* returned
  by `Equals` (always truthy), so property values are never compared;
* `JacquesFunction.Equals` compares the wrapped host closures by reference
  (`this.func === other.func`); distinct evaluations yield distinct closure
  objects, and the embedding conservatively returns `false` (no theorem below
  compares function values). -/
def Equals : JacquesValue → JacquesValue → Bool
  | .JacquesNumber a, .JacquesNumber b => a = b
  | .JacquesNumber _, _ => false
  | .JacquesString a, .JacquesString b => a = b
  | .JacquesString _, _ => false
  | .JacquesBoolean a, .JacquesBoolean b => a = b
  | .JacquesBoolean _, _ => false
  | .JacquesArray as, .JacquesArray bs => equalsList as bs
  | .JacquesArray _, _ => false
  | .JacquesRecord ps, .JacquesRecord qs =>
      ps.length = qs.length &&
        keysSubset ps qs
  | .JacquesRecord _, _ => false
  | .JacquesFunction _ _ _, _ => false

/-- Element-wise `Equals` over array elements (equal length required). -/
def equalsList : List JacquesValue → List JacquesValue → Bool
  | [], [] => true
  | a :: as, b :: bs => Equals a b && equalsList as bs
  | _, _ => false

/-- Every key of the first property list occurs in the second. -/
def keysSubset : List (String × JacquesValue) →
    List (String × JacquesValue) → Bool
  | [], _ => true
  | (k, _) :: rest, qs =>
      (qs.lookup k).isSome && keysSubset rest qs

end

/-- `NotEquals` is the boolean negation of `Equals` on every subclass. -/
def NotEquals (a b : JacquesValue) : Bool := !(Equals a b)

end JacquesValue

namespace JacquesNumber

/-- `JacquesNumber.Add`. -/
def Add (a b : ℚ) : JacquesValue := .JacquesNumber (a + b)

/-- `JacquesNumber.Subtract`. -/
def Subtract (a b : ℚ) : JacquesValue := .JacquesNumber (a - b)

/-- `JacquesNumber.Multiply`. -/
def Multiply (a b : ℚ) : JacquesValue := .JacquesNumber (a * b)

/-- `JacquesNumber.Divide`: division by zero throws `Division by zero`,
otherwise the quotient is returned as a number. -/
def Divide (a b : ℚ) : Except String JacquesValue :=
  if b = 0 then .error "Division by zero"
  else .ok (.JacquesNumber (a / b))

/-- Truncation toward zero, as JavaScript's implicit integer conversion in
the `%` operator. -/
def truncQ (q : ℚ) : ℤ := if 0 ≤ q then ⌊q⌋ else ⌈q⌉

/-- `JacquesNumber.Modulo`: JavaScript remainder (sign of the dividend).  The
source computes `this.value % other.value` with no zero guard, which yields
`NaN` for a zero divisor; `ℚ` has no `NaN`, so that case is modelled as an
error (no theorem below takes a remainder by zero). -/
def Modulo (a b : ℚ) : Except String JacquesValue :=
  if b = 0 then .error "modulo by zero yields NaN"
  else .ok (.JacquesNumber (a - b * (truncQ (a / b) : ℚ)))

/-- `JacquesNumber.LessThan`. -/
def LessThan (a b : ℚ) : JacquesValue := .JacquesBoolean (a < b)

/-- `JacquesNumber.GreaterThan`. -/
def GreaterThan (a b : ℚ) : JacquesValue := .JacquesBoolean (b < a)

/-- `JacquesNumber.LessThanOrEqual`. -/
def LessThanOrEqual (a b : ℚ) : JacquesValue := .JacquesBoolean (a ≤ b)

/-- `JacquesNumber.GreaterThanOrEqual`. -/
def GreaterThanOrEqual (a b : ℚ) : JacquesValue := .JacquesBoolean (b ≤ a)

/-- `Boolean(value)` on a JavaScript number: truthy iff non-zero. -/
def jsTruthy (a : ℚ) : Bool := a != 0

/-- `JacquesNumber.BinaryAnd`: `Boolean(this.value) && Boolean(other.value)`. -/
def BinaryAnd (a b : ℚ) : JacquesValue :=
  .JacquesBoolean (jsTruthy a && jsTruthy b)

/-- `JacquesNumber.BinaryOr`: `Boolean(this.value) || Boolean(other.value)`. -/
def BinaryOr (a b : ℚ) : JacquesValue :=
  .JacquesBoolean (jsTruthy a || jsTruthy b)

/-- `JacquesNumber.BinaryNot`: `!Boolean(this.value)`. -/
def BinaryNot (a : ℚ) : JacquesValue := .JacquesBoolean (!jsTruthy a)

end JacquesNumber

namespace JacquesArray

/-- `JacquesArray.Add(element)`: a new array with the element appended; the
receiver's element list is not modified (`[...this.elements, element]`). -/
def Add (elements : List JacquesValue) (element : JacquesValue) :
    List JacquesValue :=
  elements ++ [element]

/-- `get Length()`: the number of elements, as the numeric payload of the
`JacquesNumber` the getter wraps it in. -/
def Length (elements : List JacquesValue) : ℚ := elements.length

/-- `JacquesArray.Remove(index)`: out-of-range indices return the receiver
unchanged; otherwise a copy with `splice(index, 1)` applied, the receiver
again unmodified.  The numeric index is truncated as JavaScript `splice`
does (the guard makes it non-negative, so truncation is `⌊·⌋`). -/
def Remove (elements : List JacquesValue) (index : ℚ) :
    List JacquesValue :=
  if index < 0 ∨ (elements.length : ℚ) ≤ index then elements
  else elements.eraseIdx (⌊index⌋).toNat

/-- `JacquesArray.Get(index)`: out-of-range indices return the default value
`new JacquesNumber(0)`; in range, the element at the index.  (For a
fractional in-range index the source's `this.elements[index.value]` is
JavaScript `undefined`, which has no counterpart in the value algebra; the
embedding reads the element at `⌊index⌋`.  Every use below has an integral
index.) -/
def Get (elements : List JacquesValue) (index : ℚ) : JacquesValue :=
  if index < 0 ∨ (elements.length : ℚ) ≤ index then .JacquesNumber 0
  else (elements.getD (⌊index⌋).toNat (.JacquesNumber 0))

end JacquesArray

namespace JacquesString

/-- `JacquesString.Add`: concatenation. -/
def Add (a b : String) : JacquesValue := .JacquesString (a ++ b)

end JacquesString

/-- The result union of `Interpreter.evaluate`:
`JacquesValue | ReturnValue | null`.  (The `Function` alternative of the
source type only arises from host-reflection paths that are outside this
embedding.) -/
inductive EvalRes where
  | value (v : JacquesValue)
  | ret (v : Option JacquesValue)
  | nullV

/-- Unwrap a `ReturnValue` into the plain result its interceptors produce
(`result.__value__`). -/
def retToRes : Option JacquesValue → EvalRes
  | some v => .value v
  | none => .nullV

/-- Outcome of executing a function body statement list
(the `for` loop in the closure of `evaluateFunctionDeclaration`). -/
inductive BodyOut where
  | returned (v : Option JacquesValue)
  | completed (env : Environment)

/-- Outcome of one pass over a while-loop body (the inner `for` loop of
`evaluateWhileStatement`). -/
inductive WhileStep where
  | retSig (v : Option JacquesValue) (env : Environment)
  | cont (result : EvalRes) (env : Environment)

/-- JavaScript object property assignment `properties[key] = value` on a
record: replace an existing key in place, otherwise append. -/
def recordSet : List (String × JacquesValue) → String → JacquesValue →
    List (String × JacquesValue)
  | [], key, v => [(key, v)]
  | (k, w) :: rest, key, v =>
      if k = key then (k, v) :: rest else (k, w) :: recordSet rest key v

/-- The bindings installed by `Interpreter.initializeBuiltins`, in insertion
order and with the constant flags used there (`Println` is constant, the
constructors are not).  The `JacquesFunction.FromFunction` wrappers carry the
built-in's name. -/
def builtinsList : List (String × JacquesValue × Bool) :=
  [("Println", (.JacquesFunction (.builtin .Println) "Println" [], true)),
   ("Number", (.JacquesFunction (.builtin .NumberCtor) "Number" [], false)),
   ("String", (.JacquesFunction (.builtin .StringCtor) "String" [], false)),
   ("Boolean", (.JacquesFunction (.builtin .BooleanCtor) "Boolean" [], false)),
   ("Array", (.JacquesFunction (.builtin .ArrayCtor) "Array" [], false)),
   ("Map", (.JacquesFunction (.builtin .MapCtor) "Map" [], false))]

/-- The interpreter's separate `builtins` environment. -/
def builtinsEnv : Environment := [builtinsList]

/-- The copy loop `for (const [key, value] of this.builtins.values.entries())
functionEnv.define(key, value.value, value.constantBinding)` run at the top of
every function and lambda invocation. -/
def copyBuiltins (env : Environment) : Environment :=
  builtinsList.foldl (fun e kv => e.define kv.1 kv.2.1 kv.2.2) env

/-- The host closures behind the built-in bindings
(`Interpreter.initializeBuiltins`), applied to already-evaluated arguments:
* `Println` stringifies and writes to the console (the external print sink;
  the output itself is not observed here) and returns `null`;
* `Number` copies a numeric argument and yields `0` for a missing or
  non-numeric one;
* `String` stringifies its argument (`""` when absent);
* `Boolean` applies JavaScript `Boolean(...)` to the raw argument: absent
  gives `false`, and any `JacquesValue` object - even a false
  `JacquesBoolean` - is truthy;
* `Array` wraps the argument list;
* `Map` expects a raw host property bag, which only the default `{}` case of
  an absent argument can model. -/
def callBuiltin : BuiltinFn → List JacquesValue → Except String EvalRes
  | .Println, _ => .ok .nullV
  | .NumberCtor, args =>
      match args.head? with
      | some (.JacquesNumber n) => .ok (.value (.JacquesNumber n))
      | some _ => .ok (.value (.JacquesNumber 0))
      | none => .ok (.value (.JacquesNumber 0))
  | .StringCtor, args =>
      match args.head? with
      | some v => .ok (.value (.JacquesString v.ToString))
      | none => .ok (.value (.JacquesString ""))
  | .BooleanCtor, args =>
      match args.head? with
      | some _ => .ok (.value (.JacquesBoolean true))
      | none => .ok (.value (.JacquesBoolean false))
  | .ArrayCtor, args => .ok (.value (.JacquesArray args))
  | .MapCtor, args =>
      match args.head? with
      | some _ =>
          .error "Map builtin applied to an argument is not modelled"
      | none => .ok (.value (.JacquesRecord []))

/-- `name.startsWith("@")` as a head-character test (`String.startsWith`
itself is host-compiled and does not reduce in the kernel). -/
def beginsWithAtSign (s : String) : Bool :=
  match s.data with
  | c :: _ => c = '@'
  | [] => false

/-- `Interpreter.evaluateIdentifier`: `@name` resolves against the `self`
binding's property map; otherwise the environment chain is searched, then the
built-ins table.  (A non-record `self` makes the source's `propName in
self.properties` crash on `undefined`; that path is folded into the same
error.) -/
def evaluateIdentifier (name : String) (env : Environment) :
    Except String JacquesValue :=
  if beginsWithAtSign name then
    let propName := name.drop 1
    if env.has "self" then
      match env.get "self" with
      | .ok (.JacquesRecord ps) =>
          match ps.lookup propName with
          | some v => .ok v
          | none => .error s!"Undefined instance property: {propName}"
      | _ => .error s!"Undefined instance property: {propName}"
    else
      .error s!"Undefined instance property: {propName}"
  else if env.has name then
    env.get name
  else if builtinsEnv.has name then
    builtinsEnv.get name
  else
    .error s!"Undefined variable: {name}"

/-- The operator dispatch of `Interpreter.evaluateBinaryExpression`, applied
to two already-evaluated `JacquesValue` operands:
`+` concatenates when either side is a string and adds two numbers;
`-`, `*`, `/`, `%` and the orderings require two numbers; `==`/`!=` defer to
the value algebra's `Equals`/`NotEquals`; `&&`/`||` accept two booleans or
two numbers; anything else is an incompatible-operand failure. -/
def binaryOp (op : String) (left right : JacquesValue) :
    Except String JacquesValue :=
  match op with
  | "+" =>
      match left, right with
      | .JacquesString a, _ =>
          .ok (.JacquesString (a ++ right.ToString))
      | _, .JacquesString b =>
          .ok (.JacquesString (left.ToString ++ b))
      | .JacquesNumber a, .JacquesNumber b => .ok (JacquesNumber.Add a b)
      | _, _ => .error "Incompatible types for operator +"
  | "-" =>
      match left, right with
      | .JacquesNumber a, .JacquesNumber b => .ok (JacquesNumber.Subtract a b)
      | _, _ => .error "Incompatible types for operator -"
  | "*" =>
      match left, right with
      | .JacquesNumber a, .JacquesNumber b => .ok (JacquesNumber.Multiply a b)
      | _, _ => .error "Incompatible types for operator *"
  | "/" =>
      match left, right with
      | .JacquesNumber a, .JacquesNumber b => JacquesNumber.Divide a b
      | _, _ => .error "Incompatible types for operator /"
  | "%" =>
      match left, right with
      | .JacquesNumber a, .JacquesNumber b => JacquesNumber.Modulo a b
      | _, _ => .error "Incompatible types for operator %"
  | "==" => .ok (.JacquesBoolean (JacquesValue.Equals left right))
  | "!=" => .ok (.JacquesBoolean (JacquesValue.NotEquals left right))
  | "<" =>
      match left, right with
      | .JacquesNumber a, .JacquesNumber b => .ok (JacquesNumber.LessThan a b)
      | _, _ => .error "Incompatible types for operator <"
  | ">" =>
      match left, right with
      | .JacquesNumber a, .JacquesNumber b =>
          .ok (JacquesNumber.GreaterThan a b)
      | _, _ => .error "Incompatible types for operator >"
  | "<=" =>
      match left, right with
      | .JacquesNumber a, .JacquesNumber b =>
          .ok (JacquesNumber.LessThanOrEqual a b)
      | _, _ => .error "Incompatible types for operator <="
  | ">=" =>
      match left, right with
      | .JacquesNumber a, .JacquesNumber b =>
          .ok (JacquesNumber.GreaterThanOrEqual a b)
      | _, _ => .error "Incompatible types for operator >="
  | "&&" =>
      match left, right with
      | .JacquesBoolean a, .JacquesBoolean b =>
          .ok (.JacquesBoolean (a && b))
      | .JacquesNumber a, .JacquesNumber b => .ok (JacquesNumber.BinaryAnd a b)
      | _, _ => .error "Incompatible types for operator &&"
  | "||" =>
      match left, right with
      | .JacquesBoolean a, .JacquesBoolean b =>
          .ok (.JacquesBoolean (a || b))
      | .JacquesNumber a, .JacquesNumber b => .ok (JacquesNumber.BinaryOr a b)
      | _, _ => .error "Incompatible types for operator ||"
  | _ => .error s!"Unknown binary operator: {op}"

/-- The operator dispatch of `Interpreter.evaluateUnaryExpression`. -/
def unaryOp (op : String) (argument : JacquesValue) :
    Except String JacquesValue :=
  match op with
  | "!" =>
      match argument with
      | .JacquesBoolean b => .ok (.JacquesBoolean (!b))
      | .JacquesNumber n => .ok (JacquesNumber.BinaryNot n)
      | _ => .error "Incompatible type for operator !"
  | "-" =>
      match argument with
      | .JacquesNumber n => .ok (.JacquesNumber (-n))
      | _ => .error "Incompatible type for operator -"
  | _ => .error s!"Unknown unary operator: {op}"

/-- The `if`-condition truthiness computed at `evaluateIfStatement`: a
boolean contributes its value, a number is truthy iff non-zero, and every
other value kind falls into the final `else` and is falsy. -/
def ifTruthiness : JacquesValue → Bool
  | .JacquesBoolean b => b
  | .JacquesNumber n => n != 0
  | _ => false

/-- The `while`-condition truthiness computed at `evaluateWhileStatement`,
including the raw-result cases: a boolean contributes its value; numbers,
strings, arrays and records are truthy iff non-zero/non-empty; any other
result falls into `Boolean(condition)`, so `null` is falsy while any other
object (function values, return signals) is truthy. -/
def whileTruthiness : EvalRes → Bool
  | .value (.JacquesBoolean b) => b
  | .value (.JacquesNumber n) => n != 0
  | .value (.JacquesString s) => s != ""
  | .value (.JacquesArray es) => decide (0 < es.length)
  | .value (.JacquesRecord ps) => decide (0 < ps.length)
  | .value (.JacquesFunction ..) => true
  | .ret _ => true
  | .nullV => false

/-- `String(x)` as used in the not-callable error message of
`evaluateCallExpression`. -/
def jsStringOfRes : EvalRes → String
  | .value _ => "[object Object]"
  | .ret _ => "[object Object]"
  | .nullV => "null"

/-- The error reported when the bounded evaluator runs out of recursion
fuel; a modelling artifact with no source counterpart (the source simply
recurses on the host stack). -/
def fuelMsg : String := "evaluation fuel exhausted"

/-- Arguments flow into `JacquesFunction.__call__` through an unchecked
`as JacquesValue[]` cast in `evaluateCallExpression`; a `null` or signal
argument would smuggle a non-value into the callee's environment, which the
`JacquesValue`-typed environment of this embedding cannot represent, so that
path is an explicit error (no theorem below passes a non-value argument). -/
def coerceArgs : List EvalRes → Except String (List JacquesValue)
  | [] => .ok []
  | .value v :: rest => do
      let vs ← coerceArgs rest
      .ok (v :: vs)
  | _ :: _ => .error "non-value argument in call is not modelled"

mutual

/-- `Interpreter.evaluate`: dispatch over the node kinds.  The environment is
threaded explicitly (the source mutates it in place).  `MemberExpression`,
`ClassDeclaration`, `ImportDeclaration` and `UpdateExpression` depend on host
reflection, the class subsystem or the external module loader and are
modelled as explicit errors; node kinds absent from the source's switch fall
to its `Unknown node type` default. -/
def evaluate (fuel : Nat) (node : ASTNode) (env : Environment) :
    Except String (EvalRes × Environment) :=
  match fuel with
  | 0 => .error fuelMsg
  | fuel + 1 =>
    match node with
    | .Program body => evaluateProgram fuel body env
    | .NumberLiteral v => .ok (.value (.JacquesNumber v), env)
    | .StringLiteral v => .ok (.value (.JacquesString v), env)
    | .BooleanLiteral v => .ok (.value (.JacquesBoolean v), env)
    | .Identifier id => do
        let v ← evaluateIdentifier id.name env
        .ok (.value v, env)
    | .BinaryExpression op l r => evaluateBinaryExpression fuel op l r env
    | .UnaryExpression op a => evaluateUnaryExpression fuel op a env
    | .Assignment isConstant l r =>
        evaluateAssignment fuel isConstant l r env
    | .ArrayLiteral elements => evaluateArrayLiteral fuel elements env
    | .ObjectLiteral properties => evaluateObjectLiteral fuel properties env
    | .MemberExpression _ _ _ =>
        .error "MemberExpression evaluation relies on host reflection and is not modelled"
    | .CallExpression callee args => evaluateCallExpression fuel callee args env
    | .FunctionDeclaration name params body =>
        evaluateFunctionDeclaration name params body env
    | .LambdaExpression params body =>
        .ok (.value (.JacquesFunction (.lambda params body env) "lambda"
          (params.map IdentNode.name)), env)
    | .ClassDeclaration _ _ _ =>
        .error "class declarations are outside this embedding"
    | .IfStatement test consequent alternate =>
        evaluateIfStatement fuel test consequent alternate env
    | .ReturnStatement argument => evaluateReturnStatement fuel argument env
    | .ImportDeclaration _ _ =>
        .error "module loading is delegated to the external loader"
    | .ExportDeclaration declaration =>
        evaluateExportDeclaration fuel declaration env
    | .WhileStatement condition body =>
        whileLoop fuel condition body env .nullV
    | .UpdateExpression _ _ _ =>
        .error "update expressions are not modelled"
    | .TypeDeclaration name typeAnnot =>
        evaluateTypeDeclaration name typeAnnot env
    | .PropertyDefinition .. => .error "Unknown node type: PropertyDefinition"
    | .PropertyDeclaration .. =>
        .error "Unknown node type: PropertyDeclaration"
    | .MethodDefinition .. => .error "Unknown node type: MethodDefinition"

/-- The statement loop of `Interpreter.evaluateProgram`: the last result is
tracked, a return signal is intercepted and unwrapped, and a trailing
non-`JacquesValue` result collapses to `null`. -/
def evaluateProgram (fuel : Nat) (body : List ASTNode) (env : Environment) :
    Except String (EvalRes × Environment) :=
  match fuel with
  | 0 => .error fuelMsg
  | fuel + 1 => runProgramBody fuel body env .nullV

/-- The inner loop of `evaluateProgram`, carrying the running `result`. -/
def runProgramBody (fuel : Nat) (body : List ASTNode) (env : Environment)
    (result : EvalRes) : Except String (EvalRes × Environment) :=
  match fuel with
  | 0 => .error fuelMsg
  | fuel + 1 =>
    match body with
    | [] =>
        match result with
        | .value v => .ok (.value v, env)
        | _ => .ok (.nullV, env)
    | s :: rest => do
        let (r, env') ← evaluate fuel s env
        match r with
        | .ret v => .ok (retToRes v, env')
        | _ => runProgramBody fuel rest env' r

/-- `Interpreter.evaluateBinaryExpression`: both operands are evaluated
eagerly, left first, must both be values, and the operator table `binaryOp`
is applied. -/
def evaluateBinaryExpression (fuel : Nat) (op : String) (l r : ASTNode)
    (env : Environment) : Except String (EvalRes × Environment) :=
  match fuel with
  | 0 => .error fuelMsg
  | fuel + 1 => do
    let (lr, env1) ← evaluate fuel l env
    let (rr, env2) ← evaluate fuel r env1
    match lr, rr with
    | .value lv, .value rv => do
        let v ← binaryOp op lv rv
        .ok (.value v, env2)
    | _, _ => .error s!"Invalid operands for binary expression: {op}"

/-- `Interpreter.evaluateUnaryExpression`. -/
def evaluateUnaryExpression (fuel : Nat) (op : String) (a : ASTNode)
    (env : Environment) : Except String (EvalRes × Environment) :=
  match fuel with
  | 0 => .error fuelMsg
  | fuel + 1 => do
    let (ar, env1) ← evaluate fuel a env
    match ar with
    | .value av => do
        let v ← unaryOp op av
        .ok (.value v, env1)
    | _ => .error s!"Invalid operand for unary expression: {op}"

/-- `Interpreter.evaluateAssignment` (the current snapshot, lines 393-452):
the left side must be an identifier; the right side is evaluated first.  For
a name already bound somewhere in the chain, the type check compares
`__type__` tags and is skipped when the tags agree, when either side is a
function, or when the new value is a string (the string-result exemption);
on success `Environment.assign` performs the update (and raises the
constant-reassignment failure).  For an unbound name a fresh binding is
defined in the current scope with the node's constant flag.  (A non-value
right-hand side on the rebinding path would be stored through an unchecked
cast in the source; the `JacquesValue`-typed environment cannot represent
that and the embedding reports the new-binding error message instead.) -/
def evaluateAssignment (fuel : Nat) (isConstant : Bool) (l r : ASTNode)
    (env : Environment) : Except String (EvalRes × Environment) :=
  match fuel with
  | 0 => .error fuelMsg
  | fuel + 1 =>
    match l with
    | .Identifier id => do
        let name := id.name
        let (vr, env1) ← evaluate fuel r env
        if env1.has name then do
          let currentValue ← env1.get name
          match vr with
          | .value v =>
              let newType := v.typeName
              let currentType := currentValue.typeName
              let isSameType := newType = currentType
              let isFunctionType :=
                (match v with | .JacquesFunction .. => true | _ => false) ||
                (match currentValue with
                 | .JacquesFunction .. => true | _ => false)
              let isStringResult :=
                match v with | .JacquesString _ => true | _ => false
              if !isSameType && !isFunctionType && !isStringResult then
                .error s!"Type error: Cannot assign value of type {newType} to variable of type {currentType}"
              else do
                let env2 ← env1.assign name v
                .ok (.value v, env2)
          | _ => .error s!"Cannot assign non-value to variable: {name}"
        else
          match vr with
          | .value v =>
              .ok (.value v, env1.define name v isConstant)
          | _ => .error s!"Cannot assign non-value to variable: {name}"
    | _ => .error "Left side of assignment must be an identifier"

/-- `Interpreter.evaluateArrayLiteral`: evaluate all elements, require each
to be a value, and wrap them. -/
def evaluateArrayLiteral (fuel : Nat) (elements : List ASTNode)
    (env : Environment) : Except String (EvalRes × Environment) :=
  match fuel with
  | 0 => .error fuelMsg
  | fuel + 1 => do
    let (rs, env1) ← evalNodeList fuel elements env
    let vs ← asArrayValues rs
    .ok (.value (.JacquesArray vs), env1)

/-- `Interpreter.evaluateObjectLiteral`: evaluate each property value in
order, requiring values, into a fresh property map. -/
def evaluateObjectLiteral (fuel : Nat)
    (properties : List (String × ASTNode)) (env : Environment) :
    Except String (EvalRes × Environment) :=
  match fuel with
  | 0 => .error fuelMsg
  | fuel + 1 => do
    let (ps, env1) ← evalObjectProps fuel properties env []
    .ok (.value (.JacquesRecord ps), env1)

/-- The property loop of `evaluateObjectLiteral`. -/
def evalObjectProps (fuel : Nat) (properties : List (String × ASTNode))
    (env : Environment) (acc : List (String × JacquesValue)) :
    Except String (List (String × JacquesValue) × Environment) :=
  match fuel with
  | 0 => .error fuelMsg
  | fuel + 1 =>
    match properties with
    | [] => .ok (acc, env)
    | (key, valueNode) :: rest => do
        let (r, env') ← evaluate fuel valueNode env
        match r with
        | .value v => evalObjectProps fuel rest env' (recordSet acc key v)
        | _ => .error "Object property values must be Jacques values"

/-- Left-to-right evaluation of a node list (call arguments, array
elements), threading the environment. -/
def evalNodeList (fuel : Nat) (nodes : List ASTNode) (env : Environment) :
    Except String (List EvalRes × Environment) :=
  match fuel with
  | 0 => .error fuelMsg
  | fuel + 1 =>
    match nodes with
    | [] => .ok ([], env)
    | n :: rest => do
        let (r, env') ← evaluate fuel n env
        let (rs, env'') ← evalNodeList fuel rest env'
        .ok (r :: rs, env'')

/-- `Interpreter.evaluateCallExpression`: evaluate the callee, then the
arguments left-to-right; a `JacquesFunction` callee is invoked through
`__call__`, any other result is a not-callable failure (the raw-`Function`
and `__call__`-bearing class cases of the source belong to the unmodelled
reflection and class paths). -/
def evaluateCallExpression (fuel : Nat) (callee : ASTNode)
    (args : List ASTNode) (env : Environment) :
    Except String (EvalRes × Environment) :=
  match fuel with
  | 0 => .error fuelMsg
  | fuel + 1 => do
    let (calleeR, env1) ← evaluate fuel callee env
    let (argsR, env2) ← evalNodeList fuel args env1
    match calleeR with
    | .value (.JacquesFunction impl _ _) => do
        let argVals ← coerceArgs argsR
        let r ← applyFunction fuel impl argVals
        .ok (r, env2)
    | other => .error s!"{jsStringOfRes other} is not a function"

/-- `JacquesFunction.__call__`, dispatched on the defunctionalised closure. -/
def applyFunction (fuel : Nat) (impl : FuncImpl)
    (args : List JacquesValue) : Except String EvalRes :=
  match fuel with
  | 0 => .error fuelMsg
  | fuel + 1 =>
    match impl with
    | .userFunction fname params body defEnv =>
        applyUserFunction fuel fname params body defEnv args
    | .lambda params body defEnv => applyLambda fuel params body defEnv args
    | .builtin b => callBuiltin b args

/-- The invocation closure built by `evaluateFunctionDeclaration`
(lines 635-701): a fresh environment parented at the captured defining
environment, the built-ins copied in, parameters bound (argument, then
default evaluated in the defining scope, then the missing-argument error),
the function rebound under its own name for recursion when it is named, the
implicit `Result` binding initialised to the number zero, and the body run
statement by statement with return interception; falling off the end returns
the final value of `Result`. -/
def applyUserFunction (fuel : Nat) (fname : String)
    (params : List IdentNode) (body : List ASTNode) (defEnv : Environment)
    (args : List JacquesValue) : Except String EvalRes :=
  match fuel with
  | 0 => .error fuelMsg
  | fuel + 1 => do
    let env0 := copyBuiltins ([] :: defEnv)
    let env1 ← bindParams fuel params args defEnv env0 0
    let env2 :=
      if fname ≠ "anonymous" then
        env1.define fname
          (.JacquesFunction (.userFunction fname params body defEnv) fname
            (params.map IdentNode.name)) false
      else env1
    let env3 := env2.define "Result" (.JacquesNumber 0) false
    match ← runFunctionBody fuel body env3 with
    | .returned v => .ok (retToRes v)
    | .completed envF => do
        let rv ← envF.get "Result"
        .ok (.value rv)

/-- The parameter-binding loop shared shape of the named-function closure:
`args[i]` when supplied, else the default-value expression evaluated in the
*defining* environment, else the missing-argument error.  (The source keeps
any mutation the default expression performs on the shared defining scope;
the embedding evaluates the default for its value only.) -/
def bindParams (fuel : Nat) (params : List IdentNode)
    (args : List JacquesValue) (defEnv : Environment) (env : Environment)
    (i : Nat) : Except String Environment :=
  match fuel with
  | 0 => .error fuelMsg
  | fuel + 1 =>
    match params with
    | [] => .ok env
    | p :: rest => do
        let arg ←
          match args.get? i with
          | some a => pure a
          | none =>
              match p.defaultValue with
              | some dexpr => do
                  let (r, _) ← evaluate fuel dexpr defEnv
                  match r with
                  | .value v => pure v
                  | _ =>
                      .error "non-value default argument is not modelled"
              | none => .error s!"Missing argument for parameter: {p.name}"
        bindParams fuel rest args defEnv (env.define p.name arg false) (i + 1)

/-- The body loop of the named-function closure, intercepting return
signals. -/
def runFunctionBody (fuel : Nat) (body : List ASTNode) (env : Environment) :
    Except String BodyOut :=
  match fuel with
  | 0 => .error fuelMsg
  | fuel + 1 =>
    match body with
    | [] => .ok (.completed env)
    | s :: rest => do
        let (r, env') ← evaluate fuel s env
        match r with
        | .ret v => .ok (.returned v)
        | _ => runFunctionBody fuel rest env'

/-- The invocation closure built by `evaluateLambdaExpression`
(lines 722-774): like a function call, but a missing argument with no
default silently binds the number zero, the single-expression body is
evaluated directly, and a non-value body result collapses to the number
zero. -/
def applyLambda (fuel : Nat) (params : List IdentNode) (body : ASTNode)
    (defEnv : Environment) (args : List JacquesValue) :
    Except String EvalRes :=
  match fuel with
  | 0 => .error fuelMsg
  | fuel + 1 => do
    let env0 := copyBuiltins ([] :: defEnv)
    let env1 ← bindLambdaParams fuel params args defEnv env0 0
    let (r, _) ← evaluate fuel body env1
    match r with
    | .value v => .ok (.value v)
    | _ => .ok (.value (.JacquesNumber 0))

/-- The parameter-binding loop of the lambda closure: `args[i]`, else the
default evaluated in the defining scope, else `new JacquesNumber(0)`. -/
def bindLambdaParams (fuel : Nat) (params : List IdentNode)
    (args : List JacquesValue) (defEnv : Environment) (env : Environment)
    (i : Nat) : Except String Environment :=
  match fuel with
  | 0 => .error fuelMsg
  | fuel + 1 =>
    match params with
    | [] => .ok env
    | p :: rest => do
        let arg ←
          match args.get? i with
          | some a => pure a
          | none =>
              match p.defaultValue with
              | some dexpr => do
                  let (r, _) ← evaluate fuel dexpr defEnv
                  match r with
                  | .value v => pure v
                  | _ =>
                      .error "non-value default argument is not modelled"
              | none => pure (.JacquesNumber 0)
        bindLambdaParams fuel rest args defEnv (env.define p.name arg false)
          (i + 1)

/-- `Interpreter.evaluateFunctionDeclaration` at the declaration site: build
the `JacquesFunction` value over the captured defining environment and, for a
named function, define it in that environment.  (The source's closure
captures the environment object by reference, so its later self-binding is
visible through the capture; the value capture here snapshots the
environment at declaration time, and recursion still resolves through the
call-scope rebinding of the function's own name.) -/
def evaluateFunctionDeclaration (name : Option IdentNode)
    (params : List IdentNode) (body : List ASTNode) (env : Environment) :
    Except String (EvalRes × Environment) :=
  let fname := match name with | some id => id.name | none => "anonymous"
  let fv : JacquesValue :=
    .JacquesFunction (.userFunction fname params body env) fname
      (params.map IdentNode.name)
  match name with
  | some id => .ok (.value fv, env.define id.name fv false)
  | none => .ok (.value fv, env)

/-- `Interpreter.evaluateIfStatement`: the condition must evaluate to a
value; truthiness is `ifTruthiness` (booleans and numbers only); the chosen
branch executes statement by statement with return signals propagated, and
the statement itself otherwise evaluates to `null`. -/
def evaluateIfStatement (fuel : Nat) (test : ASTNode)
    (consequent : List ASTNode) (alternate : Option (List ASTNode))
    (env : Environment) : Except String (EvalRes × Environment) :=
  match fuel with
  | 0 => .error fuelMsg
  | fuel + 1 => do
    let (condR, env1) ← evaluate fuel test env
    match condR with
    | .value condV =>
        if ifTruthiness condV then
          runIfBranch fuel consequent env1
        else
          match alternate with
          | some alt => runIfBranch fuel alt env1
          | none => .ok (.nullV, env1)
    | _ => .error "If condition must evaluate to a Jacques value"

/-- The branch loop of `evaluateIfStatement`: return signals are propagated,
all other statement results are discarded, and the loop ends in `null`. -/
def runIfBranch (fuel : Nat) (stmts : List ASTNode) (env : Environment) :
    Except String (EvalRes × Environment) :=
  match fuel with
  | 0 => .error fuelMsg
  | fuel + 1 =>
    match stmts with
    | [] => .ok (.nullV, env)
    | s :: rest => do
        let (r, env') ← evaluate fuel s env
        match r with
        | .ret v => .ok (.ret v, env')
        | _ => runIfBranch fuel rest env'

/-- `Interpreter.evaluateReturnStatement`: evaluate the optional argument
and wrap it in a return signal.  (A nested return signal in argument
position would be smuggled through a cast in the source and is modelled as
an error.) -/
def evaluateReturnStatement (fuel : Nat) (argument : Option ASTNode)
    (env : Environment) : Except String (EvalRes × Environment) :=
  match fuel with
  | 0 => .error fuelMsg
  | fuel + 1 =>
    match argument with
    | none => .ok (.ret none, env)
    | some a => do
        let (r, env') ← evaluate fuel a env
        match r with
        | .value v => .ok (.ret (some v), env')
        | .nullV => .ok (.ret none, env')
        | .ret _ => .error "nested return signal is not modelled"

/-- `Interpreter.evaluateExportDeclaration`: evaluate the wrapped
declaration (which registers its name as a side effect) and yield its value,
unwrapping a return signal. -/
def evaluateExportDeclaration (fuel : Nat) (declaration : ASTNode)
    (env : Environment) : Except String (EvalRes × Environment) :=
  match fuel with
  | 0 => .error fuelMsg
  | fuel + 1 => do
    let (r, env') ← evaluate fuel declaration env
    match r with
    | .ret v => .ok (retToRes v, env')
    | _ => .ok (r, env')

/-- The loop of `Interpreter.evaluateWhileStatement`: re-evaluate the
condition before every iteration, exit with the tracked `result` when it is
falsy (per `whileTruthiness`), and otherwise run the body, which may
propagate a return signal out of the loop immediately. -/
def whileLoop (fuel : Nat) (condition : ASTNode) (body : List ASTNode)
    (env : Environment) (result : EvalRes) :
    Except String (EvalRes × Environment) :=
  match fuel with
  | 0 => .error fuelMsg
  | fuel + 1 => do
    let (condR, env1) ← evaluate fuel condition env
    if !whileTruthiness condR then
      .ok (result, env1)
    else
      match ← runWhileBody fuel body env1 result with
      | .retSig v env' => .ok (.ret v, env')
      | .cont result' env' => whileLoop fuel condition body env' result'

/-- The body loop of `evaluateWhileStatement`: a return signal exits
immediately; a value result updates the tracked `result`; `null` results
leave it unchanged. -/
def runWhileBody (fuel : Nat) (stmts : List ASTNode) (env : Environment)
    (result : EvalRes) : Except String WhileStep :=
  match fuel with
  | 0 => .error fuelMsg
  | fuel + 1 =>
    match stmts with
    | [] => .ok (.cont result env)
    | s :: rest => do
        let (r, env') ← evaluate fuel s env
        match r with
        | .ret v => .ok (.retSig v env')
        | .value v => runWhileBody fuel rest env' (.value v)
        | .nullV => runWhileBody fuel rest env' result

/-- `Interpreter.evaluateTypeDeclaration`: bind the name to the type-driven
default value (numbers to `0`, strings to `""`, booleans to `true`, arrays
and records to empty). -/
def evaluateTypeDeclaration (name : IdentNode) (typeAnnot : TypeNode)
    (env : Environment) : Except String (EvalRes × Environment) :=
  match typeAnnot.name with
  | "Number" => .ok (.value (.JacquesNumber 0),
      env.define name.name (.JacquesNumber 0) false)
  | "String" => .ok (.value (.JacquesString ""),
      env.define name.name (.JacquesString "") false)
  | "Boolean" => .ok (.value (.JacquesBoolean true),
      env.define name.name (.JacquesBoolean true) false)
  | "Array" => .ok (.value (.JacquesArray []),
      env.define name.name (.JacquesArray []) false)
  | "Record" => .ok (.value (.JacquesRecord []),
      env.define name.name (.JacquesRecord []) false)
  | other => .error s!"Unknown type: {other}"

/-- The element check of `evaluateArrayLiteral`. -/
def asArrayValues : List EvalRes → Except String (List JacquesValue)
  | [] => .ok []
  | .value v :: rest => do
      let vs ← asArrayValues rest
      .ok (v :: vs)
  | _ :: _ => .error "Array can only contain Jacques values"

end

/-! ## The parser (`Parser.ts`)

A recursive-descent, operator-precedence parser with explicit save/restore
backtracking on the token cursor.  The parser object's mutable fields
(`tokens`, `position`, `currentToken`) become `ParserSt`; `try`/`catch`
around speculative parses becomes matching on the `Except` result (JavaScript
`catch` intercepts every throwable, so the fuel error is caught like any
parse error).  Loops duplicated textually in the source (the parameter item
inside `functionParameters`, the modifier blocks of `classDeclaration`) are
factored into one helper applied at each site. -/

/-- A token used when the cursor is moved past the end of the stream (the
source would read `undefined`; every stream ends in `EOF`, so this is never
observable for lexer-produced streams). -/
def defaultToken : Token := ⟨.EOF, .null, 0, 0⟩

/-- The parser's mutable state: the token list, the cursor, and the cached
`currentToken`. -/
structure ParserSt where
  tokens : List Token
  position : Nat
  currentToken : Token
deriving Repr

/-- The display name of a token type, as interpolated into parse errors. -/
def TokenType.str : TokenType → String
  | .NUMBER => "NUMBER" | .STRING => "STRING" | .IDENTIFIER => "IDENTIFIER"
  | .BOOLEAN => "BOOLEAN" | .PLUS => "PLUS" | .MINUS => "MINUS"
  | .MULTIPLY => "MULTIPLY" | .DIVIDE => "DIVIDE" | .MODULO => "MODULO"
  | .EQUALS => "EQUALS" | .NOT_EQUALS => "NOT_EQUALS"
  | .LESS_THAN => "LESS_THAN" | .GREATER_THAN => "GREATER_THAN"
  | .LESS_THAN_OR_EQUAL => "LESS_THAN_OR_EQUAL"
  | .GREATER_THAN_OR_EQUAL => "GREATER_THAN_OR_EQUAL"
  | .AND => "AND" | .OR => "OR" | .NOT => "NOT"
  | .ASSIGN => "ASSIGN" | .CONST_ASSIGN => "CONST_ASSIGN"
  | .LPAREN => "LPAREN" | .RPAREN => "RPAREN" | .LBRACE => "LBRACE"
  | .RBRACE => "RBRACE" | .LBRACKET => "LBRACKET" | .RBRACKET => "RBRACKET"
  | .COLON => "COLON" | .SEMICOLON => "SEMICOLON" | .COMMA => "COMMA"
  | .DOT => "DOT" | .ARROW => "ARROW" | .AT => "AT"
  | .INCREMENT => "INCREMENT" | .FUNCTION => "FUNCTION" | .CLASS => "CLASS"
  | .EXTENDS => "EXTENDS" | .IF => "IF" | .ELSE => "ELSE" | .END => "END"
  | .RETURN => "RETURN" | .CONSTRUCTOR => "CONSTRUCTOR"
  | .PROPERTY => "PROPERTY" | .GET => "GET" | .SET => "SET"
  | .STATIC => "STATIC" | .PRIVATE => "PRIVATE" | .PROTECTED => "PROTECTED"
  | .CONST => "CONST" | .SELF => "SELF" | .RESULT => "RESULT"
  | .IMPORT => "IMPORT" | .EXPORT => "EXPORT" | .FROM => "FROM"
  | .WHILE => "WHILE" | .EOF => "EOF"

namespace Parser

/-- Build the initial parser state (`this.currentToken = this.tokens[0]`). -/
def initSt (tokens : List Token) : ParserSt :=
  ⟨tokens, 0, tokens.headD defaultToken⟩

/-- Advance the cursor one token, refreshing `currentToken` while the cursor
remains in range (the tail of `eat`). -/
def advanceSt (st : ParserSt) : ParserSt :=
  let pos := st.position + 1
  ⟨st.tokens, pos, (st.tokens.get? pos).getD st.currentToken⟩

/-- `Parser.eat(tokenType)`: consume the current token when its type
matches, otherwise fail with the positioned unexpected-token error. -/
def eat (tokenType : TokenType) (st : ParserSt) :
    Except String (Token × ParserSt) :=
  if st.currentToken.type = tokenType then
    .ok (st.currentToken, advanceSt st)
  else
    .error s!"Unexpected token: {st.currentToken.type.str}, expected: {tokenType.str} at line {st.currentToken.line}, column {st.currentToken.column}"

/-- `Parser.match(tokenType)`. -/
def matchT (tokenType : TokenType) (st : ParserSt) : Bool :=
  st.currentToken.type = tokenType

/-- `Parser.peek(n)`: look ahead without moving, clamping to the final
(EOF) token. -/
def peek (st : ParserSt) (n : Nat := 1) : Token :=
  let peekPos := st.position + n
  if peekPos ≥ st.tokens.length then
    (st.tokens.getLast? ).getD defaultToken
  else
    (st.tokens.get? peekPos).getD defaultToken

/-- The token type at an absolute cursor index, as read by the lookahead
conditions of `Parser.expression` (`this.tokens[this.position + k].type`). -/
def tokTypeAt (st : ParserSt) (i : Nat) : Option TokenType :=
  (st.tokens.get? i).map Token.type

/-- `this.position = p; this.currentToken = this.tokens[p]`: the cursor
restore performed by every backtracking site. -/
def restore (st : ParserSt) (p : Nat) : ParserSt :=
  ⟨st.tokens, p, (st.tokens.get? p).getD defaultToken⟩

/-- `Parser.optionalSemicolon()`. -/
def optionalSemicolon (st : ParserSt) : ParserSt :=
  if matchT .SEMICOLON st then advanceSt st else st

/-- `Parser.identifier()`: eat an `IDENTIFIER` token and wrap its string
payload. -/
def identifier (st : ParserSt) : Except String (IdentNode × ParserSt) := do
  let (token, st') ← eat .IDENTIFIER st
  match token.value with
  | .str name => .ok (ident name, st')
  | _ => .error "Expected identifier name to be string, got non-string"

/-- `Parser.numberLiteral()`. -/
def numberLiteral (st : ParserSt) : Except String (ASTNode × ParserSt) := do
  let (token, st') ← eat .NUMBER st
  match token.value with
  | .num v => .ok (.NumberLiteral v, st')
  | _ => .error "Expected number, got non-number"

/-- `Parser.stringLiteral()`. -/
def stringLiteral (st : ParserSt) : Except String (ASTNode × ParserSt) := do
  let (token, st') ← eat .STRING st
  match token.value with
  | .str v => .ok (.StringLiteral v, st')
  | _ => .error "Expected string, got non-string"

/-- `Parser.booleanLiteral()`. -/
def booleanLiteral (st : ParserSt) : Except String (ASTNode × ParserSt) := do
  let (token, st') ← eat .BOOLEAN st
  match token.value with
  | .bool v => .ok (.BooleanLiteral v, st')
  | _ => .error "Expected boolean, got non-boolean"

/-- The string payload of an eaten operator token, with the source's
`typeof operator !== "string"` guard. -/
def operatorStr (token : Token) : Except String String :=
  match token.value with
  | .str s => .ok s
  | _ => .error "Expected operator to be string, got non-string"

mutual

/-- `Parser.parse()`: statements until `EOF`. -/
def parse (fuel : Nat) (st : ParserSt) :
    Except String (ASTNode × ParserSt) :=
  match fuel with
  | 0 => .error fuelMsg
  | fuel + 1 => do
    let (body, st') ← parseLoop fuel st
    .ok (.Program body, st')

/-- The statement loop of `parse`. -/
def parseLoop (fuel : Nat) (st : ParserSt) :
    Except String (List ASTNode × ParserSt) :=
  match fuel with
  | 0 => .error fuelMsg
  | fuel + 1 =>
    if st.currentToken.type ≠ .EOF then do
      let (s, st') ← statement fuel st
      let (rest, st'') ← parseLoop fuel st'
      .ok (s :: rest, st'')
    else
      .ok ([], st)

/-- `Parser.statement()`: keyword-dispatched statements; an identifier is
consumed and then re-dispatched on the following token (type declaration,
assignment, or a bare identifier expression); anything else is an
expression statement. -/
def statement (fuel : Nat) (st : ParserSt) :
    Except String (ASTNode × ParserSt) :=
  match fuel with
  | 0 => .error fuelMsg
  | fuel + 1 =>
    if matchT .IF st then ifStatement fuel st
    else if matchT .FUNCTION st then functionDeclaration fuel st
    else if matchT .CLASS st then classDeclaration fuel st
    else if matchT .WHILE st then whileStatement fuel st
    else if matchT .RETURN st then returnStatement fuel st
    else if matchT .IMPORT st then importDeclaration fuel st
    else if matchT .EXPORT st then exportDeclaration fuel st
    else if matchT .IDENTIFIER st then do
      let (id, st1) ← identifier st
      if matchT .COLON st1 then
        typeDeclaration fuel id st1
      else if matchT .ASSIGN st1 || matchT .CONST_ASSIGN st1 then do
        let isConstant := st1.currentToken.type = TokenType.CONST_ASSIGN
        let (_, st2) ← eat st1.currentToken.type st1
        let (right, st3) ← expression fuel st2
        let st4 := optionalSemicolon st3
        .ok (.Assignment isConstant (.Identifier id) right, st4)
      else
        .ok (.Identifier (ident id.name), optionalSemicolon st1)
    else do
      let (e, st1) ← expression fuel st
      .ok (e, optionalSemicolon st1)

/-- `Parser.typeDeclaration(identifier)`: `name : Type` with an optional
initialising `=`/`:=`. -/
def typeDeclaration (fuel : Nat) (id : IdentNode) (st : ParserSt) :
    Except String (ASTNode × ParserSt) :=
  match fuel with
  | 0 => .error fuelMsg
  | fuel + 1 => do
    let (_, st1) ← eat .COLON st
    let (typeAnnot, st2) ← parseType st1
    if matchT .ASSIGN st2 || matchT .CONST_ASSIGN st2 then do
      let isConstant := st2.currentToken.type = TokenType.CONST_ASSIGN
      let (_, st3) ←
        eat (if isConstant then .CONST_ASSIGN else .ASSIGN) st2
      let (right, st4) ← expression fuel st3
      let st5 := optionalSemicolon st4
      .ok (.Assignment isConstant (.Identifier id) right, st5)
    else
      .ok (.TypeDeclaration id typeAnnot, optionalSemicolon st2)

/-- `Parser.parseType()`. -/
def parseType (st : ParserSt) : Except String (TypeNode × ParserSt) := do
  let (id, st') ← identifier st
  .ok (⟨id.name, false⟩, st')

/-- `Parser.whileStatement()`: `while cond ... end`. -/
def whileStatement (fuel : Nat) (st : ParserSt) :
    Except String (ASTNode × ParserSt) :=
  match fuel with
  | 0 => .error fuelMsg
  | fuel + 1 => do
    let (_, st1) ← eat .WHILE st
    let (condition, st2) ← expression fuel st1
    let (body, st3) ← statementsUntilEnd fuel st2
    let (_, st4) ← eat .END st3
    .ok (.WhileStatement condition body, optionalSemicolon st4)

/-- A statement sequence terminated by (but not consuming) `end`, the shape
of every `while (!this.match(END)) body.push(this.statement())` loop. -/
def statementsUntilEnd (fuel : Nat) (st : ParserSt) :
    Except String (List ASTNode × ParserSt) :=
  match fuel with
  | 0 => .error fuelMsg
  | fuel + 1 =>
    if !matchT .END st then do
      let (s, st') ← statement fuel st
      let (rest, st'') ← statementsUntilEnd fuel st'
      .ok (s :: rest, st'')
    else
      .ok ([], st)

/-- `Parser.expression()`: fixed lookahead first recognises direct and
member-expression assignment targets; a `(` starts a speculative lambda
parse whose failure backtracks the cursor; a bare identifier is tried as a
parenthesis-free single-parameter lambda, backtracking when no `=>`
follows; otherwise precedence climbing begins at `logicalExpression`. -/
def expression (fuel : Nat) (st : ParserSt) :
    Except String (ASTNode × ParserSt) :=
  match fuel with
  | 0 => .error fuelMsg
  | fuel + 1 =>
    let curType := st.currentToken.type
    let next1 := tokTypeAt st (st.position + 1)
    let next2 := tokTypeAt st (st.position + 2)
    let next3 := tokTypeAt st (st.position + 3)
    let directAssign :=
      (curType = .IDENTIFIER ∨ curType = .RESULT ∨ curType = .AT ∨
        curType = .SELF) ∧
      (next1 = some .ASSIGN ∨ next1 = some .CONST_ASSIGN)
    let memberAssign :=
      (curType = .IDENTIFIER ∨ curType = .SELF) ∧
      next1 = some .DOT ∧ next2 = some .IDENTIFIER ∧
      (next3 = some .ASSIGN ∨ next3 = some .CONST_ASSIGN)
    if directAssign ∨ memberAssign then
      assignmentExpression fuel st
    else if matchT .LPAREN st then
      match lambdaExpression fuel st with
      | .ok r => .ok r
      | .error _ => logicalExpression fuel (restore st st.position)
    else if matchT .IDENTIFIER st then
      match identArrowAttempt fuel st with
      | .ok r => .ok r
      | .error _ => logicalExpression fuel (restore st st.position)
    else
      logicalExpression fuel st

/-- The bare-identifier lambda attempt inside `expression()`: an identifier
followed by `=>` is a one-parameter lambda; any other shape signals the
caller to backtrack. -/
def identArrowAttempt (fuel : Nat) (st : ParserSt) :
    Except String (ASTNode × ParserSt) :=
  match fuel with
  | 0 => .error fuelMsg
  | fuel + 1 => do
    let (id, st1) ← identifier st
    if matchT .ARROW st1 then do
      let (_, st2) ← eat .ARROW st1
      let (body, st3) ← expression fuel st2
      .ok (.LambdaExpression [id] body, st3)
    else
      .error "not a parenthesis-free lambda"

/-- `Parser.assignmentExpression()`: resolve the target (identifier,
`Result`, `@name`, `self`, possibly extended by `.prop`/`[expr]` member
chains), consume `=`/`:=`, try a speculative parenthesised-lambda right-hand
side with backtracking, and finally parse the right-hand expression. -/
def assignmentExpression (fuel : Nat) (st : ParserSt) :
    Except String (ASTNode × ParserSt) :=
  match fuel with
  | 0 => .error fuelMsg
  | fuel + 1 => do
    let (left0, st1) ←
      if st.currentToken.type = TokenType.IDENTIFIER then do
        let (id, st') ← identifier st
        pure ((.Identifier id : ASTNode), st')
      else if st.currentToken.type = TokenType.RESULT then do
        let (_, st') ← eat .RESULT st
        pure ((.Identifier (ident "Result") : ASTNode), st')
      else if st.currentToken.type = TokenType.AT then do
        let (_, st') ← eat .AT st
        let (id, st'') ← identifier st'
        pure ((.Identifier (ident ("@" ++ id.name)) : ASTNode), st'')
      else if st.currentToken.type = TokenType.SELF then do
        let (_, st') ← eat .SELF st
        if matchT .DOT st' then do
          let (_, st'') ← eat .DOT st'
          let (prop, st''') ← identifier st''
          pure ((.MemberExpression (.Identifier (ident "self"))
            (.Identifier prop) false : ASTNode), st''')
        else
          pure ((.Identifier (ident "self") : ASTNode), st')
      else
        .error s!"Expected identifier, Result, @property, or self, got {st.currentToken.type.str}"
    let (left, st2) ← memberChain fuel left0 st1
    let isConstant := st2.currentToken.type = TokenType.CONST_ASSIGN
    let (_, st3) ← eat (if isConstant then .CONST_ASSIGN else .ASSIGN) st2
    if matchT .LPAREN st3 then
      match assignLambdaAttempt fuel isConstant left st3 with
      | .ok r => .ok r
      | .error _ => do
          let (right, st4) ← expression fuel (restore st3 st3.position)
          .ok (.Assignment isConstant left right, st4)
    else do
      let (right, st4) ← expression fuel st3
      .ok (.Assignment isConstant left right, st4)

/-- The `.prop`/`[expr]` member-expression chain loop of
`assignmentExpression`. -/
def memberChain (fuel : Nat) (left : ASTNode) (st : ParserSt) :
    Except String (ASTNode × ParserSt) :=
  match fuel with
  | 0 => .error fuelMsg
  | fuel + 1 =>
    if matchT .DOT st then do
      let (_, st1) ← eat .DOT st
      let (prop, st2) ← identifier st1
      memberChain fuel (.MemberExpression left (.Identifier prop) false) st2
    else if matchT .LBRACKET st then do
      let (_, st1) ← eat .LBRACKET st
      let (prop, st2) ← expression fuel st1
      let (_, st3) ← eat .RBRACKET st2
      memberChain fuel (.MemberExpression left prop true) st3
    else
      .ok (left, st)

/-- The speculative lambda right-hand side inside `assignmentExpression`:
`( ident, ... ) =>` builds a lambda-valued assignment; anything else (or the
absence of `=>`) signals the caller to backtrack. -/
def assignLambdaAttempt (fuel : Nat) (isConstant : Bool) (left : ASTNode)
    (st : ParserSt) : Except String (ASTNode × ParserSt) :=
  match fuel with
  | 0 => .error fuelMsg
  | fuel + 1 => do
    let (_, st1) ← eat .LPAREN st
    let (params, st2) ←
      if !matchT .RPAREN st1 then
        if matchT .IDENTIFIER st1 then do
          let (p, st') ← identifier st1
          plainParamListLoop fuel [p] st'
        else
          .error "Expected identifier or closing parenthesis in lambda parameters"
      else
        pure ([], st1)
    let (_, st3) ← eat .RPAREN st2
    if matchT .ARROW st3 then do
      let (_, st4) ← eat .ARROW st3
      let (body, st5) ← expression fuel st4
      .ok (.Assignment isConstant left (.LambdaExpression params body), st5)
    else
      .error "no arrow after speculative lambda parameter list"

/-- The comma loop over plain (metadata-free) lambda parameters shared by
the speculative parses of `assignmentExpression` and `primaryExpression`. -/
def plainParamListLoop (fuel : Nat) (acc : List IdentNode) (st : ParserSt) :
    Except String (List IdentNode × ParserSt) :=
  match fuel with
  | 0 => .error fuelMsg
  | fuel + 1 =>
    if matchT .COMMA st then do
      let (_, st1) ← eat .COMMA st
      if matchT .IDENTIFIER st1 then do
        let (p, st2) ← identifier st1
        plainParamListLoop fuel (acc ++ [p]) st2
      else
        .error "Expected identifier after comma in lambda parameters"
    else
      .ok (acc, st)

/-- `Parser.logicalExpression()` (`&&`, `||`). -/
def logicalExpression (fuel : Nat) (st : ParserSt) :
    Except String (ASTNode × ParserSt) :=
  match fuel with
  | 0 => .error fuelMsg
  | fuel + 1 => do
    let (left, st1) ← equalityExpression fuel st
    logicalLoop fuel left st1

/-- The operator loop of `logicalExpression`. -/
def logicalLoop (fuel : Nat) (left : ASTNode) (st : ParserSt) :
    Except String (ASTNode × ParserSt) :=
  match fuel with
  | 0 => .error fuelMsg
  | fuel + 1 =>
    if matchT .AND st || matchT .OR st then do
      let (tok, st1) ← eat st.currentToken.type st
      let op ← operatorStr tok
      let (right, st2) ← equalityExpression fuel st1
      logicalLoop fuel (.BinaryExpression op left right) st2
    else
      .ok (left, st)

/-- `Parser.equalityExpression()` (`==`, `!=`). -/
def equalityExpression (fuel : Nat) (st : ParserSt) :
    Except String (ASTNode × ParserSt) :=
  match fuel with
  | 0 => .error fuelMsg
  | fuel + 1 => do
    let (left, st1) ← relationalExpression fuel st
    equalityLoop fuel left st1

/-- The operator loop of `equalityExpression`. -/
def equalityLoop (fuel : Nat) (left : ASTNode) (st : ParserSt) :
    Except String (ASTNode × ParserSt) :=
  match fuel with
  | 0 => .error fuelMsg
  | fuel + 1 =>
    if matchT .EQUALS st || matchT .NOT_EQUALS st then do
      let (tok, st1) ← eat st.currentToken.type st
      let op ← operatorStr tok
      let (right, st2) ← relationalExpression fuel st1
      equalityLoop fuel (.BinaryExpression op left right) st2
    else
      .ok (left, st)

/-- `Parser.relationalExpression()` (`<`, `>`, `<=`, `>=`). -/
def relationalExpression (fuel : Nat) (st : ParserSt) :
    Except String (ASTNode × ParserSt) :=
  match fuel with
  | 0 => .error fuelMsg
  | fuel + 1 => do
    let (left, st1) ← additiveExpression fuel st
    relationalLoop fuel left st1

/-- The operator loop of `relationalExpression`. -/
def relationalLoop (fuel : Nat) (left : ASTNode) (st : ParserSt) :
    Except String (ASTNode × ParserSt) :=
  match fuel with
  | 0 => .error fuelMsg
  | fuel + 1 =>
    if matchT .LESS_THAN st || matchT .GREATER_THAN st ||
        matchT .LESS_THAN_OR_EQUAL st || matchT .GREATER_THAN_OR_EQUAL st
      then do
      let (tok, st1) ← eat st.currentToken.type st
      let op ← operatorStr tok
      let (right, st2) ← additiveExpression fuel st1
      relationalLoop fuel (.BinaryExpression op left right) st2
    else
      .ok (left, st)

/-- `Parser.additiveExpression()` (`+`, `-`). -/
def additiveExpression (fuel : Nat) (st : ParserSt) :
    Except String (ASTNode × ParserSt) :=
  match fuel with
  | 0 => .error fuelMsg
  | fuel + 1 => do
    let (left, st1) ← multiplicativeExpression fuel st
    additiveLoop fuel left st1

/-- The operator loop of `additiveExpression`. -/
def additiveLoop (fuel : Nat) (left : ASTNode) (st : ParserSt) :
    Except String (ASTNode × ParserSt) :=
  match fuel with
  | 0 => .error fuelMsg
  | fuel + 1 =>
    if matchT .PLUS st || matchT .MINUS st then do
      let (tok, st1) ← eat st.currentToken.type st
      let op ← operatorStr tok
      let (right, st2) ← multiplicativeExpression fuel st1
      additiveLoop fuel (.BinaryExpression op left right) st2
    else
      .ok (left, st)

/-- `Parser.multiplicativeExpression()` (`*`, `/`, `%`). -/
def multiplicativeExpression (fuel : Nat) (st : ParserSt) :
    Except String (ASTNode × ParserSt) :=
  match fuel with
  | 0 => .error fuelMsg
  | fuel + 1 => do
    let (left, st1) ← unaryExpression fuel st
    multiplicativeLoop fuel left st1

/-- The operator loop of `multiplicativeExpression`. -/
def multiplicativeLoop (fuel : Nat) (left : ASTNode) (st : ParserSt) :
    Except String (ASTNode × ParserSt) :=
  match fuel with
  | 0 => .error fuelMsg
  | fuel + 1 =>
    if matchT .MULTIPLY st || matchT .DIVIDE st || matchT .MODULO st then do
      let (tok, st1) ← eat st.currentToken.type st
      let op ← operatorStr tok
      let (right, st2) ← unaryExpression fuel st1
      multiplicativeLoop fuel (.BinaryExpression op left right) st2
    else
      .ok (left, st)

/-- `Parser.unaryExpression()` (`!`, `-`). -/
def unaryExpression (fuel : Nat) (st : ParserSt) :
    Except String (ASTNode × ParserSt) :=
  match fuel with
  | 0 => .error fuelMsg
  | fuel + 1 =>
    if matchT .NOT st || matchT .MINUS st then do
      let (tok, st1) ← eat st.currentToken.type st
      let op ← operatorStr tok
      let (argument, st2) ← unaryExpression fuel st1
      .ok (.UnaryExpression op argument, st2)
    else
      callMemberExpression fuel st

/-- `Parser.callMemberExpression()`: a primary expression extended by call,
dot-member and computed-member suffixes. -/
def callMemberExpression (fuel : Nat) (st : ParserSt) :
    Except String (ASTNode × ParserSt) :=
  match fuel with
  | 0 => .error fuelMsg
  | fuel + 1 => do
    let (e, st1) ← primaryExpression fuel st
    callMemberLoop fuel e st1

/-- The suffix loop of `callMemberExpression`. -/
def callMemberLoop (fuel : Nat) (e : ASTNode) (st : ParserSt) :
    Except String (ASTNode × ParserSt) :=
  match fuel with
  | 0 => .error fuelMsg
  | fuel + 1 =>
    if matchT .LPAREN st then do
      let (e', st') ← callExpression fuel e st
      callMemberLoop fuel e' st'
    else if matchT .DOT st then do
      let (e', st') ← memberExpression fuel e false st
      callMemberLoop fuel e' st'
    else if matchT .LBRACKET st then do
      let (e', st') ← memberExpression fuel e true st
      callMemberLoop fuel e' st'
    else
      .ok (e, st)

/-- `Parser.callExpression(callee)`. -/
def callExpression (fuel : Nat) (callee : ASTNode) (st : ParserSt) :
    Except String (ASTNode × ParserSt) :=
  match fuel with
  | 0 => .error fuelMsg
  | fuel + 1 => do
    let (_, st1) ← eat .LPAREN st
    let (args, st2) ← argumentList fuel st1
    let (_, st3) ← eat .RPAREN st2
    .ok (.CallExpression callee args, st3)

/-- `Parser.arguments()`: a possibly empty comma-separated expression
list. -/
def argumentList (fuel : Nat) (st : ParserSt) :
    Except String (List ASTNode × ParserSt) :=
  match fuel with
  | 0 => .error fuelMsg
  | fuel + 1 =>
    if !matchT .RPAREN st then do
      let (a, st1) ← expression fuel st
      let (rest, st2) ← argumentLoop fuel st1
      .ok (a :: rest, st2)
    else
      .ok ([], st)

/-- The comma loop of `arguments`. -/
def argumentLoop (fuel : Nat) (st : ParserSt) :
    Except String (List ASTNode × ParserSt) :=
  match fuel with
  | 0 => .error fuelMsg
  | fuel + 1 =>
    if matchT .COMMA st then do
      let (_, st1) ← eat .COMMA st
      let (a, st2) ← expression fuel st1
      let (rest, st3) ← argumentLoop fuel st2
      .ok (a :: rest, st3)
    else
      .ok ([], st)

/-- `Parser.memberExpression(object, computed)`. -/
def memberExpression (fuel : Nat) (object : ASTNode) (computed : Bool)
    (st : ParserSt) : Except String (ASTNode × ParserSt) :=
  match fuel with
  | 0 => .error fuelMsg
  | fuel + 1 =>
    if computed then do
      let (_, st1) ← eat .LBRACKET st
      let (property, st2) ← expression fuel st1
      let (_, st3) ← eat .RBRACKET st2
      .ok (.MemberExpression object property true, st3)
    else do
      let (_, st1) ← eat .DOT st
      let (id, st2) ← identifier st1
      .ok (.MemberExpression object (.Identifier id) false, st2)

/-- `Parser.primaryExpression()`: literals, identifiers (with the postfix
`++` check), `@name`, `self`, `Result`, the speculative lambda-or-
parenthesised dispatch on `(`, array and object literals, and function
expressions. -/
def primaryExpression (fuel : Nat) (st : ParserSt) :
    Except String (ASTNode × ParserSt) :=
  match fuel with
  | 0 => .error fuelMsg
  | fuel + 1 =>
    match st.currentToken.type with
    | .NUMBER => numberLiteral st
    | .STRING => stringLiteral st
    | .BOOLEAN => booleanLiteral st
    | .IDENTIFIER => do
        let (id, st1) ← identifier st
        if matchT .INCREMENT st1 then do
          let (_, st2) ← eat .INCREMENT st1
          .ok (.UpdateExpression "++" (.Identifier id) false, st2)
        else
          .ok (.Identifier id, st1)
    | .AT => do
        let (_, st1) ← eat .AT st
        let (id, st2) ← identifier st1
        .ok (.Identifier (ident ("@" ++ id.name)), st2)
    | .SELF => do
        let (_, st1) ← eat .SELF st
        .ok (.Identifier (ident "self"), st1)
    | .RESULT => do
        let (_, st1) ← eat .RESULT st
        .ok (.Identifier (ident "Result"), st1)
    | .LPAREN =>
        match primaryLparenAttempt fuel st with
        | .ok r => .ok r
        | .error _ => parenthesizedExpression fuel (restore st st.position)
    | .LBRACKET => arrayLiteral fuel st
    | .LBRACE => objectLiteral fuel st
    | .FUNCTION => functionExpression fuel st
    | other =>
        .error s!"Unexpected token: {other.str} at line {st.currentToken.line}, column {st.currentToken.column}"

/-- The speculative lambda parse on `(` inside `primaryExpression`: an
empty or identifier-only parameter list followed by `=>` builds a lambda;
every other outcome restores the cursor and parses a parenthesised
expression (on an error of the attempt, the caller performs the same
restore-and-reparse). -/
def primaryLparenAttempt (fuel : Nat) (st : ParserSt) :
    Except String (ASTNode × ParserSt) :=
  match fuel with
  | 0 => .error fuelMsg
  | fuel + 1 => do
    let startPosition := st.position
    let (_, st1) ← eat .LPAREN st
    if matchT .RPAREN st1 then do
      let (_, st2) ← eat .RPAREN st1
      if matchT .ARROW st2 then do
        let (_, st3) ← eat .ARROW st2
        let (body, st4) ← expression fuel st3
        .ok (.LambdaExpression [] body, st4)
      else
        parenthesizedExpression fuel (restore st2 startPosition)
    else
      if matchT .IDENTIFIER st1 then do
        let (p, st2) ← identifier st1
        let (params, st3) ← plainParamListLoop fuel [p] st2
        let (_, st4) ← eat .RPAREN st3
        if matchT .ARROW st4 then do
          let (_, st5) ← eat .ARROW st4
          let (body, st6) ← expression fuel st5
          .ok (.LambdaExpression params body, st6)
        else
          parenthesizedExpression fuel (restore st4 startPosition)
      else
        parenthesizedExpression fuel (restore st1 startPosition)

/-- `Parser.parenthesizedExpression()`: `()` not followed by `=>` yields the
boolean literal `true`; `(expr)` followed by `=>` re-reads a single
identifier as a lambda parameter; otherwise the inner expression itself. -/
def parenthesizedExpression (fuel : Nat) (st : ParserSt) :
    Except String (ASTNode × ParserSt) :=
  match fuel with
  | 0 => .error fuelMsg
  | fuel + 1 => do
    let (_, st1) ← eat .LPAREN st
    if matchT .RPAREN st1 then do
      let (_, st2) ← eat .RPAREN st1
      if matchT .ARROW st2 then do
        let (_, st3) ← eat .ARROW st2
        let (body, st4) ← expression fuel st3
        .ok (.LambdaExpression [] body, st4)
      else
        .ok (.BooleanLiteral true, st2)
    else do
      let (e, st2) ← expression fuel st1
      let (_, st3) ← eat .RPAREN st2
      if matchT .ARROW st3 then do
        let (_, st4) ← eat .ARROW st3
        let (body, st5) ← expression fuel st4
        match e with
        | .Identifier id => .ok (.LambdaExpression [id] body, st5)
        | _ => .error "Lambda parameter must be an identifier"
      else
        .ok (e, st3)

/-- `Parser.arrayLiteral()`. -/
def arrayLiteral (fuel : Nat) (st : ParserSt) :
    Except String (ASTNode × ParserSt) :=
  match fuel with
  | 0 => .error fuelMsg
  | fuel + 1 => do
    let (_, st1) ← eat .LBRACKET st
    let (elements, st2) ←
      if !matchT .RBRACKET st1 then do
        let (e, st') ← expression fuel st1
        let (rest, st'') ← commaExpressionLoop fuel st'
        pure (e :: rest, st'')
      else
        pure ([], st1)
    let (_, st3) ← eat .RBRACKET st2
    .ok (.ArrayLiteral elements, st3)

/-- The comma loop of `arrayLiteral`. -/
def commaExpressionLoop (fuel : Nat) (st : ParserSt) :
    Except String (List ASTNode × ParserSt) :=
  match fuel with
  | 0 => .error fuelMsg
  | fuel + 1 =>
    if matchT .COMMA st then do
      let (_, st1) ← eat .COMMA st
      let (e, st2) ← expression fuel st1
      let (rest, st3) ← commaExpressionLoop fuel st2
      .ok (e :: rest, st3)
    else
      .ok ([], st)

/-- `Parser.objectLiteral()`: `{ key: expr, ... }` with string-literal or
identifier keys; a missing comma ends the property list. -/
def objectLiteral (fuel : Nat) (st : ParserSt) :
    Except String (ASTNode × ParserSt) :=
  match fuel with
  | 0 => .error fuelMsg
  | fuel + 1 => do
    let (_, st1) ← eat .LBRACE st
    let (properties, st2) ← objectPropsLoop fuel st1
    let (_, st3) ← eat .RBRACE st2
    .ok (.ObjectLiteral properties, st3)

/-- The property loop of `objectLiteral`. -/
def objectPropsLoop (fuel : Nat) (st : ParserSt) :
    Except String (List (String × ASTNode) × ParserSt) :=
  match fuel with
  | 0 => .error fuelMsg
  | fuel + 1 =>
    if !matchT .RBRACE st then do
      let (key, st1) ←
        if matchT .STRING st then do
          let (tok, st') ← eat .STRING st
          match tok.value with
          | .str s => pure (s, st')
          | _ => .error "Expected string, got non-string"
        else do
          let (id, st') ← identifier st
          pure (id.name, st')
      let (_, st2) ← eat .COLON st1
      let (value, st3) ← expression fuel st2
      if matchT .COMMA st3 then do
        let (_, st4) ← eat .COMMA st3
        let (rest, st5) ← objectPropsLoop fuel st4
        .ok ((key, value) :: rest, st5)
      else
        .ok ([(key, value)], st3)
    else
      .ok ([], st)

/-- `Parser.functionDeclaration()`: `function [name] (params) body end`. -/
def functionDeclaration (fuel : Nat) (st : ParserSt) :
    Except String (ASTNode × ParserSt) :=
  match fuel with
  | 0 => .error fuelMsg
  | fuel + 1 => do
    let (_, st1) ← eat .FUNCTION st
    let (name, st2) ←
      if matchT .IDENTIFIER st1 then do
        let (id, st') ← identifier st1
        pure (some id, st')
      else
        pure (none, st1)
    let (params, st3) ← functionParameters fuel st2
    let (body, st4) ← functionBody fuel st3
    .ok (.FunctionDeclaration name params body, st4)

/-- `Parser.functionExpression()`: an anonymous function expression,
delegating to `functionDeclaration`. -/
def functionExpression (fuel : Nat) (st : ParserSt) :
    Except String (ASTNode × ParserSt) :=
  match fuel with
  | 0 => .error fuelMsg
  | fuel + 1 => functionDeclaration fuel st

/-- One parameter of `Parser.functionParameters()`: `@name` shorthand or a
plain identifier, an optional `: Type` annotation or `= default`, and the
hard error on a `:=` after a plain parameter.  (The source repeats this
block verbatim for the first parameter and inside the comma loop.) -/
def functionParamItem (fuel : Nat) (st : ParserSt) :
    Except String (IdentNode × ParserSt) :=
  match fuel with
  | 0 => .error fuelMsg
  | fuel + 1 =>
    if matchT .AT st then do
      let (_, st1) ← eat .AT st
      let (id, st2) ← identifier st1
      if matchT .COLON st2 then do
        let (_, st3) ← eat .COLON st2
        let (ty, st4) ← parseType st3
        .ok (.mk id.name true none (some ty), st4)
      else if matchT .ASSIGN st2 then do
        let (_, st3) ← eat .ASSIGN st2
        let (d, st4) ← expression fuel st3
        .ok (.mk id.name true (some d) none, st4)
      else
        .ok (.mk id.name true none none, st2)
    else do
      let (id, st1) ← identifier st
      if matchT .COLON st1 then do
        let (_, st2) ← eat .COLON st1
        let (ty, st3) ← parseType st2
        .ok (.mk id.name false none (some ty), st3)
      else if matchT .ASSIGN st1 then do
        let (_, st2) ← eat .ASSIGN st1
        let (d, st3) ← expression fuel st2
        .ok (.mk id.name false (some d) none, st3)
      else if matchT .CONST_ASSIGN st1 then
        .error "Parameters cannot be defined as constants"
      else
        .ok (.mk id.name false none none, st1)

/-- `Parser.functionParameters()`: `( item, ... )`. -/
def functionParameters (fuel : Nat) (st : ParserSt) :
    Except String (List IdentNode × ParserSt) :=
  match fuel with
  | 0 => .error fuelMsg
  | fuel + 1 => do
    let (_, st1) ← eat .LPAREN st
    let (params, st2) ←
      if !matchT .RPAREN st1 then do
        let (p, st') ← functionParamItem fuel st1
        let (rest, st'') ← functionParamLoop fuel st'
        pure (p :: rest, st'')
      else
        pure ([], st1)
    let (_, st3) ← eat .RPAREN st2
    .ok (params, st3)

/-- The comma loop of `functionParameters`. -/
def functionParamLoop (fuel : Nat) (st : ParserSt) :
    Except String (List IdentNode × ParserSt) :=
  match fuel with
  | 0 => .error fuelMsg
  | fuel + 1 =>
    if matchT .COMMA st then do
      let (_, st1) ← eat .COMMA st
      let (p, st2) ← functionParamItem fuel st1
      let (rest, st3) ← functionParamLoop fuel st2
      .ok (p :: rest, st3)
    else
      .ok ([], st)

/-- `Parser.functionBody()`: `=> expr` wraps the expression in a return
statement; otherwise statements until `end`. -/
def functionBody (fuel : Nat) (st : ParserSt) :
    Except String (List ASTNode × ParserSt) :=
  match fuel with
  | 0 => .error fuelMsg
  | fuel + 1 =>
    if matchT .ARROW st then do
      let (_, st1) ← eat .ARROW st
      let (e, st2) ← expression fuel st1
      .ok ([.ReturnStatement (some e)], optionalSemicolon st2)
    else do
      let (body, st1) ← statementsUntilEnd fuel st
      let (_, st2) ← eat .END st1
      .ok (body, optionalSemicolon st2)

/-- `Parser.classDeclaration()`: `class Name [extends Super] members end`. -/
def classDeclaration (fuel : Nat) (st : ParserSt) :
    Except String (ASTNode × ParserSt) :=
  match fuel with
  | 0 => .error fuelMsg
  | fuel + 1 => do
    let (_, st1) ← eat .CLASS st
    let (name, st2) ← identifier st1
    let (superClass, st3) ←
      if matchT .EXTENDS st2 then do
        let (_, st') ← eat .EXTENDS st2
        let (sc, st'') ← identifier st'
        pure (some sc, st'')
      else
        pure (none, st2)
    let (body, st4) ← classBodyLoop fuel st3
    let (_, st5) ← eat .END st4
    .ok (.ClassDeclaration name superClass body, optionalSemicolon st5)

/-- The member loop of `classDeclaration`. -/
def classBodyLoop (fuel : Nat) (st : ParserSt) :
    Except String (List ASTNode × ParserSt) :=
  match fuel with
  | 0 => .error fuelMsg
  | fuel + 1 =>
    if !matchT .END st then do
      let (m, st') ← classMember fuel st
      let (rest, st'') ← classBodyLoop fuel st'
      .ok (m :: rest, st'')
    else
      .ok ([], st)

/-- One member of a class body: constructor, getter/setter property,
modifier-prefixed member, `const` property, or a bare
property-assignment/method with rewind. -/
def classMember (fuel : Nat) (st : ParserSt) :
    Except String (ASTNode × ParserSt) :=
  match fuel with
  | 0 => .error fuelMsg
  | fuel + 1 =>
    if matchT .CONSTRUCTOR st then
      constructorDefinition fuel st
    else if matchT .PROPERTY st then
      propertyDeclaration fuel st
    else if matchT .STATIC st then do
      let (_, st1) ← eat .STATIC st
      modifierMember fuel true false false "static" st1
    else if matchT .PRIVATE st then do
      let (_, st1) ← eat .PRIVATE st
      modifierMember fuel false true false "private" st1
    else if matchT .PROTECTED st then do
      let (_, st1) ← eat .PROTECTED st
      modifierMember fuel false false true "protected" st1
    else if matchT .CONST st then
      propertyDefinition fuel st
    else if matchT .IDENTIFIER st then do
      let savedPosition := st.position
      let (id, st1) ← identifier st
      if matchT .ASSIGN st1 || matchT .CONST_ASSIGN st1 then do
        let isConstant := st1.currentToken.type = TokenType.CONST_ASSIGN
        let (_, st2) ←
          eat (if isConstant then .CONST_ASSIGN else .ASSIGN) st1
        let (value, st3) ← expression fuel st2
        let st4 := optionalSemicolon st3
        .ok (.PropertyDefinition id (some value) false false false
          isConstant, st4)
      else
        methodDefinition fuel false false false (restore st1 savedPosition)
    else
      .error s!"Unexpected token in class body: {st.currentToken.type.str} at line {st.currentToken.line}, column {st.currentToken.column}"

/-- The member shape shared by the `static`/`private`/`protected` blocks of
`classDeclaration` (the source repeats it once per modifier): an identifier
followed by `(` is a method, by `=`/`:=` a property, anything else the
positioned error naming the modifier. -/
def modifierMember (fuel : Nat) (isStatic isPrivate isProtected : Bool)
    (word : String) (st : ParserSt) : Except String (ASTNode × ParserSt) :=
  match fuel with
  | 0 => .error fuelMsg
  | fuel + 1 =>
    if matchT .IDENTIFIER st then do
      let (id, st1) ← identifier st
      if matchT .LPAREN st1 then do
        let (params, st2) ← functionParameters fuel st1
        let (methodBody, st3) ← functionBody fuel st2
        .ok (.MethodDefinition id
          (.FunctionDeclaration none params methodBody)
          isStatic false isPrivate isProtected, st3)
      else if matchT .ASSIGN st1 || matchT .CONST_ASSIGN st1 then do
        let isConstant := matchT .CONST_ASSIGN st1
        let (_, st2) ←
          eat (if isConstant then .CONST_ASSIGN else .ASSIGN) st1
        let (value, st3) ← expression fuel st2
        let st4 := optionalSemicolon st3
        .ok (.PropertyDefinition id (some value) isStatic isPrivate
          isProtected isConstant, st4)
      else
        .error s!"Expected LPAREN or ASSIGN after {word} identifier at line {st1.currentToken.line}, column {st1.currentToken.column}"
    else
      .error s!"Expected identifier after {word} keyword at line {st.currentToken.line}, column {st.currentToken.column}"

/-- `Parser.constructorDefinition()`. -/
def constructorDefinition (fuel : Nat) (st : ParserSt) :
    Except String (ASTNode × ParserSt) :=
  match fuel with
  | 0 => .error fuelMsg
  | fuel + 1 => do
    let (_, st1) ← eat .CONSTRUCTOR st
    let (params, st2) ← functionParameters fuel st1
    let (body, st3) ← functionBody fuel st2
    .ok (.MethodDefinition (ident "constructor")
      (.FunctionDeclaration none params body) false true false false, st3)

/-- `Parser.propertyDefinition()`: optional `static`/`private`/`protected`/
`const` modifiers, a name, and an optional initialiser. -/
def propertyDefinition (fuel : Nat) (st : ParserSt) :
    Except String (ASTNode × ParserSt) :=
  match fuel with
  | 0 => .error fuelMsg
  | fuel + 1 => do
    let (isStatic, st1) ←
      if matchT .STATIC st then do
        let (_, st') ← eat .STATIC st
        pure (true, st')
      else pure (false, st)
    let (isPrivate, st2) ←
      if matchT .PRIVATE st1 then do
        let (_, st') ← eat .PRIVATE st1
        pure (true, st')
      else pure (false, st1)
    let (isProtected, st3) ←
      if matchT .PROTECTED st2 then do
        let (_, st') ← eat .PROTECTED st2
        pure (true, st')
      else pure (false, st2)
    let (isConstant0, st4) ←
      if matchT .CONST st3 then do
        let (_, st') ← eat .CONST st3
        pure (true, st')
      else pure (false, st3)
    let (name, st5) ← identifier st4
    if matchT .ASSIGN st5 || matchT .CONST_ASSIGN st5 then do
      let isConstant := isConstant0 || matchT .CONST_ASSIGN st5
      let (_, st6) ←
        eat (if isConstant then .CONST_ASSIGN else .ASSIGN) st5
      let (value, st7) ← expression fuel st6
      .ok (.PropertyDefinition name (some value) isStatic isPrivate
        isProtected isConstant, optionalSemicolon st7)
    else
      .ok (.PropertyDefinition name none isStatic isPrivate isProtected
        isConstant0, optionalSemicolon st5)

/-- `Parser.propertyDeclaration()`: `property Name get ... set ... end`. -/
def propertyDeclaration (fuel : Nat) (st : ParserSt) :
    Except String (ASTNode × ParserSt) :=
  match fuel with
  | 0 => .error fuelMsg
  | fuel + 1 => do
    let (_, st1) ← eat .PROPERTY st
    let (name, st2) ← identifier st1
    let (getter, setter, st3) ← propertyAccessorLoop fuel none none st2
    let (_, st4) ← eat .END st3
    .ok (.PropertyDeclaration name getter setter, optionalSemicolon st4)

/-- The accessor loop of `propertyDeclaration`. -/
def propertyAccessorLoop (fuel : Nat) (getter setter : Option ASTNode)
    (st : ParserSt) :
    Except String (Option ASTNode × Option ASTNode × ParserSt) :=
  match fuel with
  | 0 => .error fuelMsg
  | fuel + 1 =>
    if matchT .END st then
      .ok (getter, setter, st)
    else if matchT .GET st then do
      let (_, st1) ← eat .GET st
      if matchT .LPAREN st1 then do
        let (_, st2) ← eat .LPAREN st1
        let (_, st3) ← eat .RPAREN st2
        if matchT .ARROW st3 then do
          let (_, st4) ← eat .ARROW st3
          let (body, st5) ← expression fuel st4
          propertyAccessorLoop fuel (some (.LambdaExpression [] body))
            setter (optionalSemicolon st5)
        else do
          let (body, st4) ← functionBody fuel st3
          propertyAccessorLoop fuel
            (some (.FunctionDeclaration none [] body)) setter st4
      else do
        let (body, st2) ← functionBody fuel st1
        propertyAccessorLoop fuel (some (.FunctionDeclaration none [] body))
          setter st2
    else if matchT .SET st then do
      let (_, st1) ← eat .SET st
      if matchT .LPAREN st1 then do
        let (params, st2) ← functionParameters fuel st1
        if matchT .ARROW st2 then do
          let (_, st3) ← eat .ARROW st2
          let (body, st4) ← expression fuel st3
          propertyAccessorLoop fuel getter
            (some (.LambdaExpression params body)) (optionalSemicolon st4)
        else do
          let (body, st3) ← functionBody fuel st2
          propertyAccessorLoop fuel getter
            (some (.FunctionDeclaration none params body)) st3
      else
        .error s!"Setter must have a parameter at line {st1.currentToken.line}, column {st1.currentToken.column}"
    else
      .error s!"Unexpected token in property declaration: {st.currentToken.type.str} at line {st.currentToken.line}, column {st.currentToken.column}"

/-- `Parser.methodDefinition(isStatic, isPrivate, isProtected)`. -/
def methodDefinition (fuel : Nat) (isStatic isPrivate isProtected : Bool)
    (st : ParserSt) : Except String (ASTNode × ParserSt) :=
  match fuel with
  | 0 => .error fuelMsg
  | fuel + 1 => do
    let (name, st1) ← identifier st
    let (params, st2) ← functionParameters fuel st1
    let (body, st3) ← functionBody fuel st2
    .ok (.MethodDefinition name (.FunctionDeclaration none params body)
      isStatic false isPrivate isProtected, st3)

/-- `Parser.ifStatement()`: `if test ... end [else [if ...] ... end]`. -/
def ifStatement (fuel : Nat) (st : ParserSt) :
    Except String (ASTNode × ParserSt) :=
  match fuel with
  | 0 => .error fuelMsg
  | fuel + 1 => do
    let (_, st1) ← eat .IF st
    let (test, st2) ← expression fuel st1
    let (consequent, st3) ← statementsUntilEnd fuel st2
    let (_, st4) ← eat .END st3
    if matchT .ELSE st4 then do
      let (_, st5) ← eat .ELSE st4
      if matchT .IF st5 then do
        let (nested, st6) ← ifStatement fuel st5
        .ok (.IfStatement test consequent (some [nested]),
          optionalSemicolon st6)
      else do
        let (alternate, st6) ← statementsUntilEnd fuel st5
        let (_, st7) ← eat .END st6
        .ok (.IfStatement test consequent (some alternate),
          optionalSemicolon st7)
    else
      .ok (.IfStatement test consequent none, optionalSemicolon st4)

/-- `Parser.returnStatement()`: `return [expr];`. -/
def returnStatement (fuel : Nat) (st : ParserSt) :
    Except String (ASTNode × ParserSt) :=
  match fuel with
  | 0 => .error fuelMsg
  | fuel + 1 => do
    let (_, st1) ← eat .RETURN st
    if !matchT .SEMICOLON st1 && !matchT .END st1 then do
      let (argument, st2) ← expression fuel st1
      .ok (.ReturnStatement (some argument), optionalSemicolon st2)
    else
      .ok (.ReturnStatement none, optionalSemicolon st1)

/-- `Parser.importDeclaration()`: `import a, b from "path";`. -/
def importDeclaration (fuel : Nat) (st : ParserSt) :
    Except String (ASTNode × ParserSt) :=
  match fuel with
  | 0 => .error fuelMsg
  | fuel + 1 => do
    let (_, st0) ← eat .IMPORT st
    let (first, st1) ← identifier st0
    let (rest, st2) ← importSpecifierLoop fuel st1
    let (_, st3) ← eat .FROM st2
    let (source, st4) ← stringLiteral st3
    match source with
    | .StringLiteral path =>
        .ok (.ImportDeclaration (first :: rest) path, optionalSemicolon st4)
    | _ => .error "import source must be a string literal"

/-- The comma loop of `importDeclaration`'s specifier list. -/
def importSpecifierLoop (fuel : Nat) (st : ParserSt) :
    Except String (List IdentNode × ParserSt) :=
  match fuel with
  | 0 => .error fuelMsg
  | fuel + 1 =>
    if matchT .COMMA st then do
      let (_, st1) ← eat .COMMA st
      let (id, st2) ← identifier st1
      let (rest, st3) ← importSpecifierLoop fuel st2
      .ok (id :: rest, st3)
    else
      .ok ([], st)

/-- `Parser.exportDeclaration()`: `export` followed by a class, function or
expression. -/
def exportDeclaration (fuel : Nat) (st : ParserSt) :
    Except String (ASTNode × ParserSt) :=
  match fuel with
  | 0 => .error fuelMsg
  | fuel + 1 => do
    let (_, st1) ← eat .EXPORT st
    if matchT .CLASS st1 then do
      let (d, st2) ← classDeclaration fuel st1
      .ok (.ExportDeclaration d, st2)
    else if matchT .FUNCTION st1 then do
      let (d, st2) ← functionDeclaration fuel st1
      .ok (.ExportDeclaration d, st2)
    else do
      let (d, st2) ← expression fuel st1
      .ok (.ExportDeclaration d, optionalSemicolon st2)

/-- `Parser.lambdaExpression()`: a parenthesised parameter list with
optional `: Type` annotations and `= default` values (or a single bare
identifier), followed by `=>` and an expression body. -/
def lambdaExpression (fuel : Nat) (st : ParserSt) :
    Except String (ASTNode × ParserSt) :=
  match fuel with
  | 0 => .error fuelMsg
  | fuel + 1 => do
    let (params, st1) ←
      if matchT .LPAREN st then do
        let (_, st') ← eat .LPAREN st
        let (params, st'') ←
          if !matchT .RPAREN st' then
            if matchT .IDENTIFIER st' then do
              let (p, s1) ← lambdaParamItem fuel st'
              let (rest, s2) ← lambdaParamLoop fuel s1
              pure (p :: rest, s2)
            else
              .error "Expected identifier in lambda parameters"
          else
            pure ([], st')
        let (_, st''') ← eat .RPAREN st''
        pure (params, st''')
      else if matchT .IDENTIFIER st then do
        let (p, st') ← identifier st
        if matchT .COLON st' then
          .error "Parameter type annotations require parentheses"
        else
          pure ([p], st')
      else
        .error "Expected parameter list or identifier for lambda expression"
    let (_, st2) ← eat .ARROW st1
    let (body, st3) ← expression fuel st2
    .ok (.LambdaExpression params body, st3)

/-- One parenthesised lambda parameter: an identifier with an optional
`: Type` annotation or `= default` (the source repeats this block for the
first parameter and inside the comma loop). -/
def lambdaParamItem (fuel : Nat) (st : ParserSt) :
    Except String (IdentNode × ParserSt) :=
  match fuel with
  | 0 => .error fuelMsg
  | fuel + 1 => do
    let (id, st1) ← identifier st
    if matchT .COLON st1 then do
      let (_, st2) ← eat .COLON st1
      let (ty, st3) ← parseType st2
      .ok (.mk id.name false none (some ty), st3)
    else if matchT .ASSIGN st1 then do
      let (_, st2) ← eat .ASSIGN st1
      let (d, st3) ← expression fuel st2
      .ok (.mk id.name false (some d) none, st3)
    else
      .ok (.mk id.name false none none, st1)

/-- The comma loop of `lambdaExpression`'s parameter list. -/
def lambdaParamLoop (fuel : Nat) (st : ParserSt) :
    Except String (List IdentNode × ParserSt) :=
  match fuel with
  | 0 => .error fuelMsg
  | fuel + 1 =>
    if matchT .COMMA st then do
      let (_, st1) ← eat .COMMA st
      if matchT .IDENTIFIER st1 then do
        let (p, st2) ← lambdaParamItem fuel st1
        let (rest, st3) ← lambdaParamLoop fuel st2
        .ok (p :: rest, st3)
      else
        .error "Expected identifier after comma in lambda parameters"
    else
      .ok ([], st)

/-- `Parser.block()`: `{ statements }` (defined in the source; unused by
the grammar's current entry points). -/
def block (fuel : Nat) (st : ParserSt) :
    Except String (List ASTNode × ParserSt) :=
  match fuel with
  | 0 => .error fuelMsg
  | fuel + 1 => do
    let (_, st1) ← eat .LBRACE st
    let (stmts, st2) ← blockLoop fuel st1
    let (_, st3) ← eat .RBRACE st2
    .ok (stmts, st3)

/-- The statement loop of `block`. -/
def blockLoop (fuel : Nat) (st : ParserSt) :
    Except String (List ASTNode × ParserSt) :=
  match fuel with
  | 0 => .error fuelMsg
  | fuel + 1 =>
    if !matchT .RBRACE st then do
      let (s, st') ← statement fuel st
      let (rest, st'') ← blockLoop fuel st'
      .ok (s :: rest, st'')
    else
      .ok ([], st)

end

end Parser

/-! ## Theorems -/

/-- Reading a name immediately after defining it in the current scope. -/
theorem Environment.get_define_self (env : Environment) (k : String)
    (v : JacquesValue) (c : Bool) : (env.define k v c).get k = .ok v := by
  cases env with
  | nil => simp [Environment.define, Environment.get, ScopeList.get]
  | cons vs rest =>
      simp [Environment.define, Environment.get, ScopeList.get_set_self]

/-- C2 (counterexample): the claim says `assign` on a name unbound in every
scope auto-vivifies a binding and returns the value; on the empty root
environment `assign("x", 5)` instead fails with `Undefined variable 'x'`
(`Environment.ts` lines 41-45). -/
theorem c2_assign_unbound_fails_counterexample :
    Environment.assign Environment.empty "x" (.JacquesNumber 5)
      = .error "Undefined variable 'x'" := rfl

/-- C2 (amended): for every environment and every name not bound in it nor
in any enclosing scope, `assign(name, value)` does not create a binding: it
fails with `Undefined variable '<name>'`.  (New mutable bindings for bare
`=` are created by the evaluator's assignment node through `define`, not by
`assign`.) -/
theorem c2_assign_unbound_errors (env : Environment) (name : String)
    (value : JacquesValue) (h : env.has name = false) :
    env.assign name value = .error s!"Undefined variable '{name}'" := by
  induction env with
  | nil => simp [Environment.assign]
  | cons vs rest ih =>
      simp only [Environment.has, Bool.or_eq_false_iff] at h
      obtain ⟨h1, h2⟩ := h
      have hget : ScopeList.get vs name = none := by
        simpa [ScopeList.has, Option.isSome_iff_exists] using h1
      simp [Environment.assign, hget, ih h2, Bind.bind, Except.bind]

/-- C2 (witness): the amended theorem applied to the concrete environment
`{y ↦ 1}` and the unbound name `x`. -/
theorem c2_assign_unbound_errors_witness :
    Environment.has [[("y", .JacquesNumber 1, false)]] "x" = false ∧
    Environment.assign [[("y", .JacquesNumber 1, false)]] "x"
        (.JacquesNumber 5) = .error "Undefined variable 'x'" :=
  ⟨rfl, c2_assign_unbound_errors [[("y", .JacquesNumber 1, false)]] "x"
    (.JacquesNumber 5) rfl⟩

/-- Removing the index just past a list appended with one element returns
the original list (`splice(length, 1)` drops the appended element). -/
theorem eraseIdx_append_length (l : List JacquesValue) (x : JacquesValue) :
    (l ++ [x]).eraseIdx l.length = l := by
  induction l with
  | nil => rfl
  | cons a l ih => simp [List.eraseIdx, ih]

/-- C5: for every array value `arr` and element `x`,
`arr.Add(x).Remove(arr.Length)` is structurally equal to `arr`
(round-trip).  Immutability of the receiver is inherent in the embedding:
`Add` and `Remove` build new arrays (`[...this.elements, element]` and a
spread copy before `splice`) and never touch the receiver's element list. -/
theorem c5_array_add_remove_roundtrip (arr : List JacquesValue)
    (x : JacquesValue) :
    JacquesArray.Remove (JacquesArray.Add arr x) (JacquesArray.Length arr)
      = arr := by
  unfold JacquesArray.Remove JacquesArray.Add JacquesArray.Length
  rw [if_neg]
  · have h1 : (⌊(arr.length : ℚ)⌋).toNat = arr.length := by
      rw [Int.floor_natCast, Int.toNat_natCast]
    rw [h1, eraseIdx_append_length]
  · push_neg
    constructor
    · positivity
    · simp only [List.length_append, List.length_cons, List.length_nil]
      push_cast
      linarith

/-- C7: `a.Divide(b)` raises `Division by zero` if and only if `b` is zero;
for a non-zero `b` it returns the exact quotient as a number, never a
silent infinity (`JacquesValue.ts` lines 35-40). -/
theorem c7_divide_by_zero (a b : ℚ) :
    (b = 0 → JacquesNumber.Divide a b = .error "Division by zero") ∧
    (b ≠ 0 → JacquesNumber.Divide a b = .ok (.JacquesNumber (a / b))) ∧
    (JacquesNumber.Divide a b = .error "Division by zero" ↔ b = 0) := by
  refine ⟨fun h => by simp [JacquesNumber.Divide, h],
    fun h => by simp [JacquesNumber.Divide, h], ?_⟩
  constructor
  · intro h
    by_contra hb
    simp [JacquesNumber.Divide, hb] at h
  · intro h
    simp [JacquesNumber.Divide, h]

/-- C7 (witness): the divide-by-zero equivalence at `6 / 0` and the exact
quotient at `6 / 3`. -/
theorem c7_divide_by_zero_witness :
    JacquesNumber.Divide 6 0 = .error "Division by zero" ∧
    JacquesNumber.Divide 6 3 = .ok (.JacquesNumber (6 / 3)) :=
  ⟨(c7_divide_by_zero 6 0).1 rfl,
   (c7_divide_by_zero 6 3).2.1 (by norm_num)⟩

/-- C10: `arr.Get(i)` is total over out-of-range indices: whenever `i < 0`
or `i ≥ arr.Length`, it does not fail and returns the default
`JacquesNumber 0` (`JacquesValue.ts` lines 180-185). -/
theorem c10_array_get_out_of_range (arr : List JacquesValue) (i : ℚ)
    (h : i < 0 ∨ (arr.length : ℚ) ≤ i) :
    JacquesArray.Get arr i = .JacquesNumber 0 := by
  simp [JacquesArray.Get, h]

/-- C10 (witness): `Get` at index `5` of a one-element array. -/
theorem c10_array_get_out_of_range_witness :
    ((5 : ℚ) < 0 ∨ ((List.length [JacquesValue.JacquesNumber 7] : ℚ) ≤ 5)) ∧
    JacquesArray.Get [.JacquesNumber 7] 5 = .JacquesNumber 0 :=
  ⟨Or.inr (by norm_num), c10_array_get_out_of_range _ 5
    (Or.inr (by norm_num))⟩

/-- A token on line 1 at the given column, per the tokenizer contract. -/
def tk (t : TokenType) (v : TokenValue) (c : Nat) : Token := ⟨t, v, 1, c⟩

/-- The token stream of `x = 5; x = "hi"`. -/
def tokensAssignStringLit : List Token :=
  [tk .IDENTIFIER (.str "x") 1, tk .ASSIGN (.str "=") 3,
   tk .NUMBER (.num 5) 5, tk .SEMICOLON (.str ";") 6,
   tk .IDENTIFIER (.str "x") 8, tk .ASSIGN (.str "=") 10,
   tk .STRING (.str "hi") 12, tk .SEMICOLON (.str ";") 16,
   tk .EOF .null 17]

/-- The token stream of `x = 5; x = 5 + "!"`. -/
def tokensAssignConcat : List Token :=
  [tk .IDENTIFIER (.str "x") 1, tk .ASSIGN (.str "=") 3,
   tk .NUMBER (.num 5) 5, tk .SEMICOLON (.str ";") 6,
   tk .IDENTIFIER (.str "x") 8, tk .ASSIGN (.str "=") 10,
   tk .NUMBER (.num 5) 12, tk .PLUS (.str "+") 14,
   tk .STRING (.str "!") 16, tk .SEMICOLON (.str ";") 19,
   tk .EOF .null 20]

/-- The token stream of `x = 5; x = true`. -/
def tokensAssignBool : List Token :=
  [tk .IDENTIFIER (.str "x") 1, tk .ASSIGN (.str "=") 3,
   tk .NUMBER (.num 5) 5, tk .SEMICOLON (.str ";") 6,
   tk .IDENTIFIER (.str "x") 8, tk .ASSIGN (.str "=") 10,
   tk .BOOLEAN (.bool true) 12, tk .SEMICOLON (.str ";") 16,
   tk .EOF .null 17]

/-- Parse a token stream and run the program in a fresh root environment,
returning the final environment (the shape of `Jacques.runDebug`). -/
def runTokens (fuel : Nat) (tokens : List Token) :
    Except String (EvalRes × Environment) := do
  let (ast, _) ← Parser.parse fuel (Parser.initSt tokens)
  evaluate fuel ast Environment.empty

/-- C1: the reassignment type check at the evaluator's assignment node.  The
claim (and the repository's own test `types.test.ts: "should error when
reassigning value of different type"`) requires `x = 5; x = "hi"` to raise
`TypeMismatch`; the code's string-result exemption
(`Interpreter.ts` lines 417-432) instead accepts any string right-hand side,
so the program succeeds and `x` ends up bound to `"hi"`.  The concatenation
case `x = 5; x = 5 + "!"` succeeds as claimed, and a non-string mismatch
(`x = 5; x = true`) does raise the type error, isolating the divergence to
the string exemption. -/
theorem c1_string_reassignment_not_rejected :
    (do
      let (_, env) ← runTokens 60 tokensAssignStringLit
      Environment.get env "x") = .ok (.JacquesString "hi") ∧
    (do
      let (_, env) ← runTokens 60 tokensAssignConcat
      Environment.get env "x") = .ok (.JacquesString "5!") ∧
    runTokens 60 tokensAssignBool =
      .error "Type error: Cannot assign value of type JacquesBoolean to variable of type JacquesNumber" :=
  ⟨rfl, rfl, rfl⟩

/-- The token stream of `x := 1; x = 2`. -/
def tokensConstThenAssign : List Token :=
  [tk .IDENTIFIER (.str "x") 1, tk .CONST_ASSIGN (.str ":=") 3,
   tk .NUMBER (.num 1) 6, tk .SEMICOLON (.str ";") 7,
   tk .IDENTIFIER (.str "x") 9, tk .ASSIGN (.str "=") 11,
   tk .NUMBER (.num 2) 13, tk .SEMICOLON (.str ";") 14,
   tk .EOF .null 15]

/-- The token stream of `x = 1; x = 2`. -/
def tokensAssignTwice : List Token :=
  [tk .IDENTIFIER (.str "x") 1, tk .ASSIGN (.str "=") 3,
   tk .NUMBER (.num 1) 5, tk .SEMICOLON (.str ";") 6,
   tk .IDENTIFIER (.str "x") 8, tk .ASSIGN (.str "=") 10,
   tk .NUMBER (.num 2) 12, tk .SEMICOLON (.str ";") 13,
   tk .EOF .null 14]

/-- C6: `x := 1; x = 2` raises the constant-reassignment failure
(`Environment.assign`, `Environment.ts` lines 33-35), while
`x = 1; x = 2` succeeds and afterwards `x` reads `2`. -/
theorem c6_constant_reassignment :
    runTokens 60 tokensConstThenAssign =
      .error "Cannot reassign constant variable: x" ∧
    (do
      let (_, env) ← runTokens 60 tokensAssignTwice
      Environment.get env "x") = .ok (.JacquesNumber 2) :=
  ⟨rfl, rfl⟩

/-- The token stream of `(x) => x * x`. -/
def tokensParenLambda : List Token :=
  [tk .LPAREN (.str "(") 1, tk .IDENTIFIER (.str "x") 2,
   tk .RPAREN (.str ")") 3, tk .ARROW (.str "=>") 5,
   tk .IDENTIFIER (.str "x") 8, tk .MULTIPLY (.str "*") 10,
   tk .IDENTIFIER (.str "x") 12, tk .EOF .null 13]

/-- The token stream of `(1 + 2)`. -/
def tokensParenSum : List Token :=
  [tk .LPAREN (.str "(") 1, tk .NUMBER (.num 1) 2,
   tk .PLUS (.str "+") 4, tk .NUMBER (.num 2) 6,
   tk .RPAREN (.str ")") 7, tk .EOF .null 8]

/-- C9: the parser's `(`-disambiguation by speculative lambda parse with
backtracking.  The token stream of `(x) => x * x` parses to a
`LambdaExpression` with exactly the one parameter `x`, and the token stream
of `(1 + 2)` - where the speculative lambda parse fails at the number token
and the cursor is restored - parses to the parenthesised additive
expression `1 + 2`. -/
theorem c9_lambda_disambiguation :
    (Parser.expression 50 (Parser.initSt tokensParenLambda)).map Prod.fst
      = .ok (.LambdaExpression [ident "x"]
          (.BinaryExpression "*" (.Identifier (ident "x"))
            (.Identifier (ident "x")))) ∧
    (Parser.expression 50 (Parser.initSt tokensParenSum)).map Prod.fst
      = .ok (.BinaryExpression "+" (.NumberLiteral 1) (.NumberLiteral 2)) :=
  ⟨rfl, rfl⟩

/-- C4 (counterexample): the claim says a call supplying neither an
argument nor a default for a declared parameter fails with an error, for
functions and lambdas alike; invoking the lambda `(x) => x` with no
arguments instead succeeds, binding `x` to the number `0`
(`Interpreter.ts` lines 753-756). -/
theorem c4_lambda_missing_argument_counterexample :
    evaluate 20 (.CallExpression
        (.LambdaExpression [ident "x"] (.Identifier (ident "x"))) [])
      Environment.empty = .ok (.value (.JacquesNumber 0),
        Environment.empty) := rfl

/-- C4 (amended): a declared parameter is bound to the corresponding
argument when one is supplied, otherwise to its default-value expression
evaluated in the defining scope; when neither exists, a named user-defined
function call fails with `Missing argument for parameter`, while a lambda
instead binds the parameter to the number `0` and proceeds. -/
theorem c4_parameter_binding (a b v : JacquesValue) :
    applyUserFunction 20 "f" [ident "x", ident "y"]
        [.ReturnStatement (some (.ArrayLiteral
          [.Identifier (ident "x"), .Identifier (ident "y")]))]
        Environment.empty [a, b]
      = .ok (.value (.JacquesArray [a, b])) ∧
    applyUserFunction 20 "f"
        [IdentNode.mk "x" false (some (.Identifier (ident "d"))) none]
        [.ReturnStatement (some (.Identifier (ident "x")))]
        [[("d", v, false)]] []
      = .ok (.value v) ∧
    applyUserFunction 20 "f" [ident "x"]
        [.ReturnStatement (some (.Identifier (ident "x")))]
        Environment.empty []
      = .error "Missing argument for parameter: x" ∧
    applyLambda 20 [ident "x"] (.Identifier (ident "x"))
        Environment.empty []
      = .ok (.value (.JacquesNumber 0)) ∧
    applyLambda 20 [IdentNode.mk "x" false (some (.Identifier (ident "d")))
        none] (.Identifier (ident "x")) [[("d", v, false)]] []
      = .ok (.value v) :=
  ⟨rfl, rfl, rfl, rfl, rfl⟩

/-- C3 (counterexample): the claim says an `if` whose condition evaluates to
a non-empty string executes its consequent; with the consequent
`return 42`, the condition `"hi"` yields `null` (the consequent did not
run), while the condition `true` propagates the return signal (the
consequent ran) - `evaluateIfStatement` treats every non-boolean,
non-number condition as falsy (`Interpreter.ts` lines 949-957). -/
theorem c3_if_string_condition_counterexample :
    evaluate 10 (.IfStatement (.StringLiteral "hi")
        [.ReturnStatement (some (.NumberLiteral 42))] none)
      Environment.empty = .ok (.nullV, Environment.empty) ∧
    evaluate 10 (.IfStatement (.BooleanLiteral true)
        [.ReturnStatement (some (.NumberLiteral 42))] none)
      Environment.empty
      = .ok (.ret (some (.JacquesNumber 42)), Environment.empty) :=
  ⟨rfl, rfl⟩

/-- Does an evaluation result carry a return signal? -/
def EvalRes.isRet : EvalRes → Bool
  | .ret _ => true
  | _ => false

mutual

/-- No `return` statement in statement position: the only node kinds whose
evaluation can surface a return signal are a return statement itself and the
if/while statements that propagate one out of their branch or body (function
bodies, calls, program nodes and export declarations all intercept the
signal). -/
def returnFree : ASTNode → Bool
  | .ReturnStatement _ => false
  | .IfStatement _ consequent alternate =>
      returnFreeList consequent &&
        (match alternate with
         | some alt => returnFreeList alt
         | none => true)
  | .WhileStatement _ body => returnFreeList body
  | _ => true

/-- `returnFree` over a statement list. -/
def returnFreeList : List ASTNode → Bool
  | [] => true
  | s :: rest => returnFree s && returnFreeList rest

end

/-- Inversion of a successful `Except` bind. -/
theorem exceptBind_ok {α β : Type} {x : Except String α}
    {f : α → Except String β} {b : β} (h : x >>= f = .ok b) :
    ∃ a, x = .ok a ∧ f a = .ok b := by
  cases x with
  | error e => simp [Bind.bind, Except.bind] at h
  | ok a => exact ⟨a, rfl, by simpa [Bind.bind, Except.bind] using h⟩

/-- A successful built-in call never produces a return signal. -/
theorem callBuiltin_ok_not_ret {b : BuiltinFn} {args : List JacquesValue}
    {res : EvalRes} (h : callBuiltin b args = .ok res) :
    res.isRet = false := by
  cases b <;> simp only [callBuiltin] at h <;> (try split at h)
  all_goals cases h
  all_goals rfl

/-- A successful lambda invocation never produces a return signal (the body
result is a value or collapses to the number zero). -/
theorem applyLambda_ok_not_ret {fuel : Nat} {params : List IdentNode}
    {body : ASTNode} {defEnv : Environment} {args : List JacquesValue}
    {res : EvalRes} (h : applyLambda fuel params body defEnv args = .ok res) :
    res.isRet = false := by
  cases fuel with
  | zero => simp [applyLambda] at h
  | succ f =>
      simp only [applyLambda] at h
      obtain ⟨env1, -, h⟩ := exceptBind_ok h
      obtain ⟨p, -, h⟩ := exceptBind_ok h
      obtain ⟨r, env2⟩ := p
      split at h
      all_goals (cases h; rfl)

/-- A successful named-function invocation never produces a return signal:
an explicit return is intercepted and unwrapped, and the fall-through path
returns the value of `Result`. -/
theorem applyUserFunction_ok_not_ret {fuel : Nat} {fname : String}
    {params : List IdentNode} {body : List ASTNode} {defEnv : Environment}
    {args : List JacquesValue} {res : EvalRes}
    (h : applyUserFunction fuel fname params body defEnv args = .ok res) :
    res.isRet = false := by
  cases fuel with
  | zero => simp [applyUserFunction] at h
  | succ f =>
      simp only [applyUserFunction] at h
      obtain ⟨env1, -, h⟩ := exceptBind_ok h
      obtain ⟨out, -, h⟩ := exceptBind_ok h
      cases out with
      | returned v => cases v <;> (cases h; rfl)
      | completed envF =>
          obtain ⟨rv, -, h⟩ := exceptBind_ok h
          cases h
          rfl

/-- A successful `__call__` never produces a return signal. -/
theorem applyFunction_ok_not_ret {fuel : Nat} {impl : FuncImpl}
    {args : List JacquesValue} {res : EvalRes}
    (h : applyFunction fuel impl args = .ok res) : res.isRet = false := by
  cases fuel with
  | zero => simp [applyFunction] at h
  | succ f =>
      cases impl with
      | userFunction fname params body defEnv =>
          exact applyUserFunction_ok_not_ret (by simpa [applyFunction] using h)
      | lambda params body defEnv =>
          exact applyLambda_ok_not_ret (by simpa [applyFunction] using h)
      | builtin b => exact callBuiltin_ok_not_ret (by simpa [applyFunction] using h)

/-- A successful binary expression evaluates to a value, never a return
signal. -/
theorem evaluateBinaryExpression_ok_not_ret {fuel : Nat} {op : String}
    {l r : ASTNode} {env : Environment} {res : EvalRes} {env' : Environment}
    (h : evaluateBinaryExpression fuel op l r env = .ok (res, env')) :
    res.isRet = false := by
  cases fuel with
  | zero => simp [evaluateBinaryExpression] at h
  | succ f =>
      simp only [evaluateBinaryExpression] at h
      obtain ⟨p1, -, h⟩ := exceptBind_ok h
      obtain ⟨lr, env1⟩ := p1
      obtain ⟨p2, -, h⟩ := exceptBind_ok h
      obtain ⟨rr, env2⟩ := p2
      split at h
      · obtain ⟨v, -, h⟩ := exceptBind_ok h
        cases h
        rfl
      · cases h

/-- A successful unary expression evaluates to a value. -/
theorem evaluateUnaryExpression_ok_not_ret {fuel : Nat} {op : String}
    {a : ASTNode} {env : Environment} {res : EvalRes} {env' : Environment}
    (h : evaluateUnaryExpression fuel op a env = .ok (res, env')) :
    res.isRet = false := by
  cases fuel with
  | zero => simp [evaluateUnaryExpression] at h
  | succ f =>
      simp only [evaluateUnaryExpression] at h
      obtain ⟨p1, -, h⟩ := exceptBind_ok h
      obtain ⟨ar, env1⟩ := p1
      split at h
      · obtain ⟨v, -, h⟩ := exceptBind_ok h
        cases h
        rfl
      · cases h

/-- A successful assignment evaluates to the assigned value. -/
theorem evaluateAssignment_ok_not_ret {fuel : Nat} {c : Bool}
    {l r : ASTNode} {env : Environment} {res : EvalRes} {env' : Environment}
    (h : evaluateAssignment fuel c l r env = .ok (res, env')) :
    res.isRet = false := by
  cases fuel with
  | zero => simp [evaluateAssignment] at h
  | succ f =>
      simp only [evaluateAssignment] at h
      split at h
      · obtain ⟨p1, -, h⟩ := exceptBind_ok h
        obtain ⟨vr, env1⟩ := p1
        split at h
        · obtain ⟨cur, -, h⟩ := exceptBind_ok h
          split at h
          · split at h
            · cases h
            · obtain ⟨env2, -, h⟩ := exceptBind_ok h
              cases h
              rfl
          · cases h
        · split at h
          · cases h
            rfl
          · cases h
      · cases h

/-- A successful array literal evaluates to an array value. -/
theorem evaluateArrayLiteral_ok_not_ret {fuel : Nat}
    {elements : List ASTNode} {env : Environment} {res : EvalRes}
    {env' : Environment}
    (h : evaluateArrayLiteral fuel elements env = .ok (res, env')) :
    res.isRet = false := by
  cases fuel with
  | zero => simp [evaluateArrayLiteral] at h
  | succ f =>
      simp only [evaluateArrayLiteral] at h
      obtain ⟨p1, -, h⟩ := exceptBind_ok h
      obtain ⟨rs, env1⟩ := p1
      obtain ⟨vs, -, h⟩ := exceptBind_ok h
      cases h
      rfl

/-- A successful object literal evaluates to a record value. -/
theorem evaluateObjectLiteral_ok_not_ret {fuel : Nat}
    {properties : List (String × ASTNode)} {env : Environment}
    {res : EvalRes} {env' : Environment}
    (h : evaluateObjectLiteral fuel properties env = .ok (res, env')) :
    res.isRet = false := by
  cases fuel with
  | zero => simp [evaluateObjectLiteral] at h
  | succ f =>
      simp only [evaluateObjectLiteral] at h
      obtain ⟨p1, -, h⟩ := exceptBind_ok h
      obtain ⟨ps, env1⟩ := p1
      cases h
      rfl

/-- A successful call expression yields the callee's result, which is never
a return signal. -/
theorem evaluateCallExpression_ok_not_ret {fuel : Nat} {callee : ASTNode}
    {args : List ASTNode} {env : Environment} {res : EvalRes}
    {env' : Environment}
    (h : evaluateCallExpression fuel callee args env = .ok (res, env')) :
    res.isRet = false := by
  cases fuel with
  | zero => simp [evaluateCallExpression] at h
  | succ f =>
      simp only [evaluateCallExpression] at h
      obtain ⟨p1, -, h⟩ := exceptBind_ok h
      obtain ⟨calleeR, env1⟩ := p1
      obtain ⟨p2, -, h⟩ := exceptBind_ok h
      obtain ⟨argsR, env2⟩ := p2
      split at h
      · obtain ⟨argVals, -, h⟩ := exceptBind_ok h
        obtain ⟨r, hApply, h⟩ := exceptBind_ok h
        cases h
        exact applyFunction_ok_not_ret hApply
      · cases h

/-- A successful function declaration evaluates to the function value. -/
theorem evaluateFunctionDeclaration_ok_not_ret {name : Option IdentNode}
    {params : List IdentNode} {body : List ASTNode} {env : Environment}
    {res : EvalRes} {env' : Environment}
    (h : evaluateFunctionDeclaration name params body env
      = .ok (res, env')) : res.isRet = false := by
  cases name with
  | none =>
      simp only [evaluateFunctionDeclaration] at h
      cases h
      rfl
  | some n =>
      simp only [evaluateFunctionDeclaration] at h
      cases h
      rfl

/-- A successful type declaration evaluates to the default value. -/
theorem evaluateTypeDeclaration_ok_not_ret {name : IdentNode}
    {ty : TypeNode} {env : Environment} {res : EvalRes}
    {env' : Environment}
    (h : evaluateTypeDeclaration name ty env = .ok (res, env')) :
    res.isRet = false := by
  simp only [evaluateTypeDeclaration] at h
  split at h
  all_goals cases h
  all_goals rfl

/-- Unwrapping a return signal produces a plain value or null, never
another return signal. -/
theorem retToRes_not_ret (v : Option JacquesValue) :
    (retToRes v).isRet = false := by
  cases v <;> rfl

/-- A successful program-body run never surfaces a return signal (the loop
unwraps it into the signal's value). -/
theorem runProgramBody_ok_not_ret : ∀ (fuel : Nat) (stmts : List ASTNode)
    (env : Environment) (r0 res : EvalRes) (env' : Environment),
    runProgramBody fuel stmts env r0 = .ok (res, env') →
    res.isRet = false := by
  intro fuel
  induction fuel with
  | zero => intro stmts env r0 res env' h; simp [runProgramBody] at h
  | succ f ih =>
      intro stmts env r0 res env' h
      simp only [runProgramBody] at h
      cases stmts with
      | nil =>
          cases r0 <;> (cases h; rfl)
      | cons s rest =>
          obtain ⟨p, -, h⟩ := exceptBind_ok h
          obtain ⟨r, env1⟩ := p
          split at h
          · cases h
            exact retToRes_not_ret _
          · exact ih _ _ _ _ _ h

/-- A successful program evaluation never surfaces a return signal. -/
theorem evaluateProgram_ok_not_ret {fuel : Nat} {body : List ASTNode}
    {env : Environment} {res : EvalRes} {env' : Environment}
    (h : evaluateProgram fuel body env = .ok (res, env')) :
    res.isRet = false := by
  cases fuel with
  | zero => simp [evaluateProgram] at h
  | succ f => exact runProgramBody_ok_not_ret f body env .nullV res env' h

/-- A successful export declaration unwraps any return signal from the
wrapped declaration. -/
theorem evaluateExportDeclaration_ok_not_ret {fuel : Nat}
    {declaration : ASTNode} {env : Environment} {res : EvalRes}
    {env' : Environment}
    (h : evaluateExportDeclaration fuel declaration env = .ok (res, env')) :
    res.isRet = false := by
  cases fuel with
  | zero => simp [evaluateExportDeclaration] at h
  | succ f =>
      simp only [evaluateExportDeclaration] at h
      obtain ⟨p1, -, h⟩ := exceptBind_ok h
      obtain ⟨r, env1⟩ := p1
      split at h
      · cases h
        exact retToRes_not_ret _
      · rename_i hne
        cases h
        cases r with
        | ret v => exact absurd rfl (hne v)
        | value v => rfl
        | nullV => rfl

/-- The return-freeness invariant, one component per evaluator loop: when
every statement in sight is `returnFree`, a successful evaluation never
surfaces a return signal, an if-branch run never propagates one, a
while-body run always continues (with a non-return tracked result), and a
while loop yields a non-return result. -/
theorem returnFree_invariant (fuel : Nat) :
    (∀ n env res env2, returnFree n = true →
      evaluate fuel n env = .ok (res, env2) → res.isRet = false) ∧
    (∀ test cons alt env res env2, returnFreeList cons = true →
      (∀ alt2, alt = some alt2 → returnFreeList alt2 = true) →
      evaluateIfStatement fuel test cons alt env = .ok (res, env2) →
      res.isRet = false) ∧
    (∀ stmts env res env2, returnFreeList stmts = true →
      runIfBranch fuel stmts env = .ok (res, env2) → res.isRet = false) ∧
    (∀ stmts env r0 step, returnFreeList stmts = true → r0.isRet = false →
      runWhileBody fuel stmts env r0 = .ok step →
      ∃ r2 env2, step = .cont r2 env2 ∧ r2.isRet = false) ∧
    (∀ cond body env r0 res env2, returnFreeList body = true →
      r0.isRet = false → whileLoop fuel cond body env r0 = .ok (res, env2) →
      res.isRet = false) := by
  induction fuel with
  | zero =>
      refine ⟨?_, ?_, ?_, ?_, ?_⟩
      · intro n env res env2 _ h; simp [evaluate] at h
      · intro test cons alt env res env2 _ _ h
        simp [evaluateIfStatement] at h
      · intro stmts env res env2 _ h; simp [runIfBranch] at h
      · intro stmts env r0 step _ _ h; simp [runWhileBody] at h
      · intro cond body env r0 res env2 _ _ h; simp [whileLoop] at h
  | succ f ih =>
      obtain ⟨ihE, ihIf, ihIfb, ihWb, ihWl⟩ := ih
      refine ⟨?_, ?_, ?_, ?_, ?_⟩
      · intro n env res env2 hrf h
        cases n with
        | Program body =>
            simp only [evaluate] at h
            exact evaluateProgram_ok_not_ret h
        | NumberLiteral v => simp only [evaluate] at h; cases h; rfl
        | StringLiteral v => simp only [evaluate] at h; cases h; rfl
        | BooleanLiteral v => simp only [evaluate] at h; cases h; rfl
        | Identifier id =>
            simp only [evaluate] at h
            obtain ⟨v, -, h⟩ := exceptBind_ok h
            cases h; rfl
        | BinaryExpression op l r =>
            simp only [evaluate] at h
            exact evaluateBinaryExpression_ok_not_ret h
        | UnaryExpression op a =>
            simp only [evaluate] at h
            exact evaluateUnaryExpression_ok_not_ret h
        | Assignment c l r =>
            simp only [evaluate] at h
            exact evaluateAssignment_ok_not_ret h
        | ArrayLiteral es =>
            simp only [evaluate] at h
            exact evaluateArrayLiteral_ok_not_ret h
        | ObjectLiteral ps =>
            simp only [evaluate] at h
            exact evaluateObjectLiteral_ok_not_ret h
        | MemberExpression a b c => simp [evaluate] at h
        | CallExpression callee args =>
            simp only [evaluate] at h
            exact evaluateCallExpression_ok_not_ret h
        | FunctionDeclaration name params body =>
            simp only [evaluate] at h
            exact evaluateFunctionDeclaration_ok_not_ret h
        | LambdaExpression params body =>
            simp only [evaluate] at h; cases h; rfl
        | ClassDeclaration a b c => simp [evaluate] at h
        | PropertyDefinition a b c d e g => simp [evaluate] at h
        | PropertyDeclaration a b c => simp [evaluate] at h
        | MethodDefinition a b c d e g => simp [evaluate] at h
        | IfStatement test cons alt =>
            simp only [evaluate] at h
            cases alt with
            | none =>
                have hc : returnFreeList cons = true := by
                  have h2 : (returnFreeList cons && true) = true := hrf
                  simpa using h2
                refine ihIf test cons none env res env2 hc ?_ h
                intro alt2 halt2
                cases halt2
            | some alt2 =>
                have h2 : (returnFreeList cons && returnFreeList alt2)
                    = true := hrf
                rw [Bool.and_eq_true] at h2
                refine ihIf test cons (some alt2) env res env2 h2.1 ?_ h
                intro a2 ha2
                cases ha2
                exact h2.2
        | ReturnStatement arg => exact Bool.noConfusion hrf
        | ImportDeclaration a b => simp [evaluate] at h
        | ExportDeclaration d =>
            simp only [evaluate] at h
            exact evaluateExportDeclaration_ok_not_ret h
        | WhileStatement cond body =>
            simp only [evaluate] at h
            exact ihWl cond body env .nullV res env2 hrf rfl h
        | UpdateExpression a b c => simp [evaluate] at h
        | TypeDeclaration name ty =>
            simp only [evaluate] at h
            exact evaluateTypeDeclaration_ok_not_ret h
      · intro test cons alt env res env2 hc ha h
        simp only [evaluateIfStatement] at h
        obtain ⟨p, -, h⟩ := exceptBind_ok h
        obtain ⟨condR, env1⟩ := p
        split at h
        · split at h
          · exact ihIfb _ _ _ _ hc h
          · cases alt with
            | some alt2 => exact ihIfb _ _ _ _ (ha alt2 rfl) h
            | none =>
                have h3 : (Except.ok (EvalRes.nullV, env1)
                    : Except String (EvalRes × Environment))
                    = .ok (res, env2) := h
                cases h3
                rfl
        · cases h
      · intro stmts env res env2 hl h
        simp only [runIfBranch] at h
        cases stmts with
        | nil => cases h; rfl
        | cons s rest =>
            have hl2 : (returnFree s && returnFreeList rest) = true := hl
            rw [Bool.and_eq_true] at hl2
            obtain ⟨p, hev, h⟩ := exceptBind_ok h
            obtain ⟨r, env1⟩ := p
            have hr := ihE s env r env1 hl2.1 hev
            cases r with
            | ret v => exact Bool.noConfusion hr
            | value v => exact ihIfb rest env1 res env2 hl2.2 h
            | nullV => exact ihIfb rest env1 res env2 hl2.2 h
      · intro stmts env r0 step hl h0 h
        simp only [runWhileBody] at h
        cases stmts with
        | nil =>
            cases h
            exact ⟨r0, env, rfl, h0⟩
        | cons s rest =>
            have hl2 : (returnFree s && returnFreeList rest) = true := hl
            rw [Bool.and_eq_true] at hl2
            obtain ⟨p, hev, h⟩ := exceptBind_ok h
            obtain ⟨r, env1⟩ := p
            have hr := ihE s env r env1 hl2.1 hev
            cases r with
            | ret v => exact Bool.noConfusion hr
            | value v => exact ihWb rest env1 (.value v) step hl2.2 rfl h
            | nullV => exact ihWb rest env1 r0 step hl2.2 h0 h
      · intro cond body env r0 res env2 hl h0 h
        simp only [whileLoop] at h
        obtain ⟨p, -, h⟩ := exceptBind_ok h
        obtain ⟨condR, env1⟩ := p
        split at h
        · cases h; exact h0
        · obtain ⟨step, hstep, h⟩ := exceptBind_ok h
          obtain ⟨r2, env3, heq, hr2⟩ := ihWb body env1 r0 step hl h0 hstep
          subst heq
          exact ihWl cond body env3 r2 res env2 hl hr2 h

/-- When the body is `returnFree`, a successful `runFunctionBody` run always
completes (never hits the return-interception branch). -/
theorem runFunctionBody_returnFree_completes : ∀ (fuel : Nat)
    (body : List ASTNode) (env : Environment) (out : BodyOut),
    returnFreeList body = true → runFunctionBody fuel body env = .ok out →
    ∃ envF, out = .completed envF := by
  intro fuel
  induction fuel with
  | zero => intro body env out _ h; simp [runFunctionBody] at h
  | succ f ih =>
      intro body env out hl h
      simp only [runFunctionBody] at h
      cases body with
      | nil =>
          cases h
          exact ⟨env, rfl⟩
      | cons s rest =>
          have hl2 : (returnFree s && returnFreeList rest) = true := hl
          rw [Bool.and_eq_true] at hl2
          obtain ⟨p, hev, h⟩ := exceptBind_ok h
          obtain ⟨r, env1⟩ := p
          have hr := (returnFree_invariant f).1 s env r env1 hl2.1 hev
          cases r with
          | ret v => exact Bool.noConfusion hr
          | value v => exact ih rest env1 out hl2.2 h
          | nullV => exact ih rest env1 out hl2.2 h

/-- C8: a call of a named user-defined function whose body contains no
return statement in statement position - so no return can execute - yields
the final value of the implicit `Result` binding, which is initialised to
the number zero in the call's fresh environment before the body executes. -/
theorem c8_result_binding (fuel : Nat) (fname : String)
    (params : List IdentNode) (body : List ASTNode) (defEnv : Environment)
    (args : List JacquesValue) (res : EvalRes)
    (hrf : returnFreeList body = true)
    (h : applyUserFunction (fuel + 1) fname params body defEnv args
      = .ok res) :
    ∃ env1 env3 envF rv,
      bindParams fuel params args defEnv (copyBuiltins ([] :: defEnv)) 0
        = .ok env1 ∧
      env3 = Environment.define
        (if fname ≠ "anonymous" then
          Environment.define env1 fname
            (.JacquesFunction (.userFunction fname params body defEnv)
              fname (params.map IdentNode.name)) false
         else env1) "Result" (.JacquesNumber 0) false ∧
      Environment.get env3 "Result" = .ok (.JacquesNumber 0) ∧
      runFunctionBody fuel body env3 = .ok (.completed envF) ∧
      Environment.get envF "Result" = .ok rv ∧
      res = .value rv := by
  simp only [applyUserFunction] at h
  obtain ⟨env1, hbind, h⟩ := exceptBind_ok h
  obtain ⟨out, hbody, h⟩ := exceptBind_ok h
  obtain ⟨envF, rfl⟩ :=
    runFunctionBody_returnFree_completes fuel body _ out hrf hbody
  have h2 : (do
      let rv ← Environment.get envF "Result"
      Except.ok (EvalRes.value rv) : Except String EvalRes) = .ok res := h
  obtain ⟨rv, hget, h3⟩ := exceptBind_ok h2
  have h4 : (Except.ok (EvalRes.value rv) : Except String EvalRes)
      = .ok res := h3
  cases h4
  exact ⟨env1, _, envF, rv, hbind, rfl,
    Environment.get_define_self _ _ _ _, hbody, hget, rfl⟩

/-- The body `Result = 5;` used to witness the `Result` semantics. -/
def resultAssignBody : List ASTNode :=
  [.Assignment false (.Identifier (ident "Result")) (.NumberLiteral 5)]

/-- Witness for the `Result` semantics at a concrete call. -/
theorem c8_result_binding_witness :
    returnFreeList resultAssignBody = true ∧
    applyUserFunction 21 "f" [] resultAssignBody [[]] []
      = .ok (.value (.JacquesNumber 5)) ∧
    ∃ env1 env3 envF rv,
      bindParams 20 [] [] [[]] (copyBuiltins [[], []]) 0 = .ok env1 ∧
      env3 = Environment.define
        (Environment.define env1 "f"
          (.JacquesFunction (.userFunction "f" [] resultAssignBody [[]])
            "f" []) false) "Result" (.JacquesNumber 0) false ∧
      Environment.get env3 "Result" = .ok (.JacquesNumber 0) ∧
      runFunctionBody 20 resultAssignBody env3 = .ok (.completed envF) ∧
      Environment.get envF "Result" = .ok rv ∧
      EvalRes.value (.JacquesNumber 5) = .value rv :=
  ⟨rfl, rfl, c8_result_binding 20 "f" [] resultAssignBody [[]] []
    (.value (.JacquesNumber 5)) rfl rfl⟩

/-- C3 (amended): condition truthiness, observed on a condition variable
`c` bound to an arbitrary value, with the branch/body `return 42` (the
return signal escapes exactly when the branch runs).  A while loop follows
the claimed rule - Boolean by value, Number iff non-zero, String iff
non-empty, Array/Record iff non-empty - except that a function value (any
object outside the tested kinds) is truthy, not falsy.  An if statement
instead treats only Booleans (by value) and Numbers (non-zero) as truthy;
every other value, including a non-empty String, is falsy and the
consequent does not execute. -/
theorem c3_truthiness (v : JacquesValue) :
    evaluate 10 (.IfStatement (.Identifier (ident "c"))
        [.ReturnStatement (some (.NumberLiteral 42))] none)
        [[("c", v, false)]]
      = (if (match v with
          | .JacquesBoolean b => b
          | .JacquesNumber n => n != 0
          | _ => false) then
            .ok (EvalRes.ret (some (.JacquesNumber 42)), [[("c", v, false)]])
          else .ok (.nullV, [[("c", v, false)]])) ∧
    evaluate 10 (.WhileStatement (.Identifier (ident "c"))
        [.ReturnStatement (some (.NumberLiteral 42))])
        [[("c", v, false)]]
      = (if (match v with
          | .JacquesBoolean b => b
          | .JacquesNumber n => n != 0
          | .JacquesString s => s != ""
          | .JacquesArray es => !es.isEmpty
          | .JacquesRecord ps => !ps.isEmpty
          | .JacquesFunction _ _ _ => true) then
            .ok (EvalRes.ret (some (.JacquesNumber 42)), [[("c", v, false)]])
          else .ok (.nullV, [[("c", v, false)]])) := by
  refine ⟨?_, ?_⟩
  · cases v <;> rfl
  · cases v with
    | JacquesBoolean b => cases b <;> rfl
    | JacquesNumber n =>
        show (if !(n != 0) then
            Except.ok (EvalRes.nullV,
              ([[("c", JacquesValue.JacquesNumber n, false)]] : Environment))
          else
            Except.ok (EvalRes.ret (some (JacquesValue.JacquesNumber 42)),
              ([[("c", JacquesValue.JacquesNumber n, false)]] :
                Environment))) = _
        cases hb : (n != 0) <;> simp [hb]
    | JacquesString s =>
        obtain ⟨l⟩ := s
        cases l <;> rfl
    | JacquesArray es =>
        cases es with
        | nil => rfl
        | cons hd tl =>
            show (if !(decide (0 < (hd :: tl).length)) then
                Except.ok (EvalRes.nullV,
                  ([[("c", JacquesValue.JacquesArray (hd :: tl), false)]] :
                    Environment))
              else
                Except.ok (EvalRes.ret (some (JacquesValue.JacquesNumber 42)),
                  ([[("c", JacquesValue.JacquesArray (hd :: tl), false)]] :
                    Environment))) = _
            simp
    | JacquesRecord ps =>
        cases ps with
        | nil => rfl
        | cons hd tl =>
            show (if !(decide (0 < (hd :: tl).length)) then
                Except.ok (EvalRes.nullV,
                  ([[("c", JacquesValue.JacquesRecord (hd :: tl), false)]] :
                    Environment))
              else
                Except.ok (EvalRes.ret (some (JacquesValue.JacquesNumber 42)),
                  ([[("c", JacquesValue.JacquesRecord (hd :: tl), false)]] :
                    Environment))) = _
            simp
    | JacquesFunction impl name params => rfl

end Jacques
